import Mathlib

set_option linter.unusedVariables false

/-!
A shallow embedding of the zone-recommendation scoring engine of the
"Find Your Best Spot" web application (the quiz/recommendation script).
JavaScript numbers are modelled as exact rationals; the JavaScript values
"N/A", undefined and -Infinity are modelled with explicit sum types, and
JavaScript strings as lists of characters.
-/

/-- Character-list representation of JavaScript strings. -/
abbrev Str := List Char

/-- Whitespace class used by the model of JavaScript trim and parseFloat
(restricted to the ASCII whitespace characters). -/
def jsIsWS (c : Char) : Bool :=
  c == ' ' || c == '\t' || c == '\r' || c == '\n'

/-- Models JavaScript String.prototype.trim. -/
def jsTrim (s : Str) : Str :=
  ((s.dropWhile jsIsWS).reverse.dropWhile jsIsWS).reverse

/-- Models JavaScript String.prototype.split with a one-character
separator: always returns at least one (possibly empty) piece. -/
def splitOnChar (sep : Char) : Str → List Str
  | [] => [[]]
  | c :: cs =>
    match splitOnChar sep cs with
    | [] => [[]]
    | h :: t => if c = sep then [] :: h :: t else (c :: h) :: t

/-- Removes one trailing carriage return, if present. -/
def dropTrailingCR (s : Str) : Str :=
  match s.reverse with
  | '\r' :: rest => rest.reverse
  | _ => s

/-- Strips one trailing carriage return from every piece except the last,
matching a split on the regular expression CRLF-or-LF. -/
def stripCRs : List Str → List Str
  | [] => []
  | [p] => [p]
  | p :: ps => dropTrailingCR p :: stripCRs ps

/-- Models JavaScript split on the line-break regular expression used by
the CSV parsers (CRLF or LF). -/
def splitLinesJS (s : Str) : List Str := stripCRs (splitOnChar '\n' s)

/-- Value of a run of decimal digit characters. -/
def digitsToNat (ds : Str) : ℕ :=
  ds.foldl (fun a c => 10 * a + (c.toNat - 48)) 0

/-- Rational power of ten (natural exponent). -/
def pow10 : ℕ → ℚ
  | 0 => 1
  | n + 1 => 10 * pow10 n

/-- Rational power of ten (integer exponent). -/
def qpow10Z : ℤ → ℚ
  | Int.ofNat n => pow10 n
  | Int.negSucc n => 1 / pow10 (n + 1)

/-- Models JavaScript parseFloat on decimal literals: skips leading
whitespace, then reads an optional sign, an integer part, an optional
fraction and an optional exponent, ignoring trailing characters.  Returns
none when no digit is read (JavaScript NaN).  The Infinity literal, not
representable in ℚ, is treated as a parse failure. -/
def parseFloatQ (s : Str) : Option ℚ :=
  let cs := s.dropWhile jsIsWS
  let sgn : ℚ := match cs with
    | '-' :: _ => -1
    | _ => 1
  let cs1 := match cs with
    | '-' :: r => r
    | '+' :: r => r
    | _ => cs
  let ip := cs1.takeWhile Char.isDigit
  let cs2 := cs1.dropWhile Char.isDigit
  let fp := match cs2 with
    | '.' :: r => r.takeWhile Char.isDigit
    | _ => []
  let rest := match cs2 with
    | '.' :: r => r.dropWhile Char.isDigit
    | _ => cs2
  if ip.length = 0 ∧ fp.length = 0 then none
  else
    let mant : ℚ := (digitsToNat ip : ℚ) + (digitsToNat fp : ℚ) / pow10 fp.length
    let expo : ℤ :=
      match rest with
      | c :: r =>
        if c = 'e' ∨ c = 'E' then
          let es : ℤ := match r with
            | '-' :: _ => -1
            | _ => 1
          let r2 := match r with
            | '-' :: r3 => r3
            | '+' :: r3 => r3
            | _ => r
          let ed := r2.takeWhile Char.isDigit
          if ed.length = 0 then 0 else es * (digitsToNat ed : ℤ)
        else 0
      | [] => 0
    some (sgn * mant * qpow10Z expo)

/-- Models JavaScript parseInt (decimal form: optional sign plus digits;
the hexadecimal prefix form is not modelled). -/
def parseIntZ (s : Str) : Option ℤ :=
  let cs := s.dropWhile jsIsWS
  let sgn : ℤ := match cs with
    | '-' :: _ => -1
    | _ => 1
  let cs1 := match cs with
    | '-' :: r => r
    | '+' :: r => r
    | _ => cs
  let ds := cs1.takeWhile Char.isDigit
  if ds.length = 0 then none else some (sgn * (digitsToNat ds : ℤ))

/-- Decimal digit characters of a natural number, with fuel. -/
def natToCharsAux : ℕ → ℕ → Str → Str
  | 0, _, acc => acc
  | fuel + 1, n, acc =>
    let acc2 := Char.ofNat (48 + n % 10) :: acc
    if n < 10 then acc2 else natToCharsAux fuel (n / 10) acc2

/-- Decimal string of a natural number (models JavaScript String(n)). -/
def natToChars (n : ℕ) : Str := natToCharsAux (n + 1) n []

/-- Models JavaScript String.prototype.toLowerCase (ASCII letters). -/
def toLowerStr (s : Str) : Str := s.map Char.toLower

/-- Models JavaScript String.prototype.includes. -/
def containsSub (pat : Str) : Str → Bool
  | [] => pat.isPrefixOf []
  | c :: cs => pat.isPrefixOf (c :: cs) || containsSub pat cs

/-- Models assignment to a string-keyed JavaScript object field:
overwrites in place, or appends a new key in insertion order. -/
def objSet {α : Type} (m : List (Str × α)) (k : Str) (v : α) : List (Str × α) :=
  match m with
  | [] => [(k, v)]
  | (k2, v2) :: rest => if k2 = k then (k, v) :: rest else (k2, v2) :: objSet rest k v

/-- Models reading a string-keyed JavaScript object field. -/
def objGet {α : Type} (m : List (Str × α)) (k : Str) : Option α :=
  (m.find? (fun p => p.1 = k)).map Prod.snd

/-- Indexing with a default value (models the JavaScript array read
values[i], with the default standing for undefined). -/
def listGetD {α : Type} : List α → ℕ → α → α
  | [], _, d => d
  | a :: _, 0, _ => a
  | _ :: l, n + 1, d => listGetD l n d

/-- Models JavaScript Math.round: nearest integer, halves rounded towards
positive infinity. -/
def jsMathRound (q : ℚ) : ℤ := ⌊q + 1/2⌋

/-- Models Number.prototype.toFixed followed by parseFloat: rounds to the
given number of decimal digits, halves away from zero. -/
def jsToFixed (digits : ℕ) (q : ℚ) : ℚ :=
  if q < 0 then -((jsMathRound (-q * pow10 digits) : ℚ) / pow10 digits)
  else (jsMathRound (q * pow10 digits) : ℚ) / pow10 digits

/-- A JavaScript value that is either the string "N/A" or a number. -/
inductive JsVal where
  | na
  | num (q : ℚ)
deriving DecidableEq

/-- A JavaScript number that may be -Infinity (the originalComfortScore
of placeholder zones). -/
inductive JNum where
  | negInf
  | num (q : ℚ)
deriving DecidableEq

def MAX_SCORE_PER_CRITERION : ℚ := 100

def PENALTY_NO_DATA_IF_PREFERRED : ℚ := -200

def PENALTY_OUT_OF_RANGE_FACTOR : ℚ := 5

/-- A user preference range. -/
structure PrefRange where
  min : ℚ
  max : ℚ
  ideal : ℚ
deriving DecidableEq

/-- One row of the feels-like lookup table. -/
structure FeelsLikeEntry where
  ta : ℚ
  feelsLike : ℚ
deriving DecidableEq

/-- One parsed zone record: zone id, time series (a JavaScript object in
insertion order, null modelled as none) and the optional average fields
(absent field = none, the string value "N/A" = some na). -/
structure ZoneRecord where
  zones : Str
  timeSeries : List (Str × Option ℚ)
  averageLux : Option JsVal
  averageDb : Option JsVal
  averageTemp : Option JsVal
deriving DecidableEq

/-- Embedding of the timePeriodConfig table: the officeHoursContribution
weight of each descriptive time period. -/
def timePeriodConfig (s : Str) : Option ℚ :=
  if s = "Afternoon".data then some (2/5)
  else if s = "Early Morning".data then some (1/10)
  else if s = "Evening".data then some (1/10)
  else if s = "Morning".data then some (2/5)
  else if s = "Night".data then some 0
  else if s = "Late evening".data then some 0
  else none

/-- Embedding of the lightingThresholds table. -/
def lightingThresholds (s : Str) : Option PrefRange :=
  if s = "dim".data then some ⟨0, 150, 75⟩
  else if s = "balanced".data then some ⟨151, 500, 325⟩
  else if s = "well-lit".data then some ⟨501, 1000, 750⟩
  else if s = "sunny-natural".data then some ⟨1001, 10000, 1500⟩
  else none

/-- Embedding of the noiseWorkTypeThresholds table. -/
def noiseWorkTypeThresholds (s : Str) : Option PrefRange :=
  if s = "focus-work".data then some ⟨0, 45, 40⟩
  else if s = "relaxed-productivity".data then some ⟨40, 50, 45⟩
  else if s = "collaborative-work".data then some ⟨45, 55, 50⟩
  else if s = "break-relaxation".data then some ⟨0, 48, 42⟩
  else none

/-- Embedding of the temperatureThresholds table. -/
def temperatureThresholds (s : Str) : Option PrefRange :=
  if s = "stable-comfortable".data then some ⟨23, 25, 24⟩
  else if s = "consistently-warm".data then some ⟨251/10, 30, 27⟩
  else if s = "slightly-cool".data then some ⟨18, 229/10, 21⟩
  else none

/-- Embedding of calculateCriterionScore.  The actual value is undefined
(none), the string "N/A", or a number; the idealValueUnused argument of
the source is kept for fidelity. -/
def calculateCriterionScore : Option JsVal → ℚ → ℚ → ℚ → Bool → ℚ
  | _, _, _, _, false => PENALTY_NO_DATA_IF_PREFERRED
  | none, _, _, _, true => PENALTY_NO_DATA_IF_PREFERRED
  | some .na, _, _, _, true => PENALTY_NO_DATA_IF_PREFERRED
  | some (.num v), idealValueUnused, minPref, maxPref, true =>
    if minPref ≤ v ∧ v ≤ maxPref then MAX_SCORE_PER_CRITERION
    else max 0 (MAX_SCORE_PER_CRITERION -
      (if v < minPref then minPref - v else v - maxPref) * PENALTY_OUT_OF_RANGE_FACTOR)

/-- Embedding of normalizeComfortScore.  Both the no-preference branch and
the general branch of the source map -Infinity to 0, so the match on the
score is hoisted to the top; the local variables range and normalized of
the source are inlined. -/
def normalizeComfortScore : JNum → ℕ → ℕ → ℚ
  | .negInf, _, _ => 0
  | .num s, criteriaMetCount, numSelectedPrefs =>
    if numSelectedPrefs = 0 then
      if s < PENALTY_NO_DATA_IF_PREFERRED * (3/2) then 0
      else if s > 250 then 1
      else if s > 150 then 4/5
      else if s > 50 then 3/5
      else if s ≥ 0 then 2/5
      else 1/5
    else
      if criteriaMetCount = numSelectedPrefs then 1
      else if criteriaMetCount > 0 then
        1/2 + ((criteriaMetCount : ℚ) / (numSelectedPrefs : ℚ)) * (1/2)
      else
        if (numSelectedPrefs * MAX_SCORE_PER_CRITERION
            - numSelectedPrefs * PENALTY_NO_DATA_IF_PREFERRED : ℚ) = 0 then 0
        else
          max 0 (min ((s - numSelectedPrefs * PENALTY_NO_DATA_IF_PREFERRED) /
            (numSelectedPrefs * MAX_SCORE_PER_CRITERION
              - numSelectedPrefs * PENALTY_NO_DATA_IF_PREFERRED)) 1) * (2/5)

/-- Folding step of the descriptive-period row parser over timeColumns:
updates the time series and accumulates the weighted sum and the total
weight; the column value is looked up again through indexOf on headers,
exactly as the source does. -/
def descRowStep (headers values : List Str)
    (acc : List (Str × Option ℚ) × ℚ × ℚ) (timeColumn : Str) :
    List (Str × Option ℚ) × ℚ × ℚ :=
  match headers.findIdx? (fun h => h = timeColumn) with
  | none => acc
  | some actualIndex =>
    let rawValue := listGetD values actualIndex []
    match parseFloatQ rawValue with
    | some numericValue =>
      let ts := objSet acc.1 timeColumn (some numericValue)
      match timePeriodConfig timeColumn with
      | some w =>
        if w > 0 then (ts, acc.2.1 + numericValue * w, acc.2.2 + w)
        else (ts, acc.2.1, acc.2.2)
      | none => (ts, acc.2.1, acc.2.2)
    | none => (objSet acc.1 timeColumn none, acc.2.1, acc.2.2)

/-- One data row of the descriptive-period parser: none when the row is
skipped (mismatched column count or empty zone name), otherwise the built
record; for the Light data type the weighted office-hours average is
attached, rounded with Math.round. -/
def descParseRow (headers timeColumns : List Str) (zoneColumnIndex : ℕ)
    (dataType : Str) (line : Str) : Option ZoneRecord :=
  let values := (splitOnChar ',' line).map jsTrim
  if values.length ≠ headers.length then none
  else
    let zoneName := listGetD values zoneColumnIndex []
    if zoneName = [] then none
    else
      let r := timeColumns.foldl (descRowStep headers values) ([], 0, 0)
      some { zones := zoneName, timeSeries := r.1,
             averageLux :=
               if dataType = "Light".data then
                 some (if r.2.2 > 0 then JsVal.num (jsMathRound (r.2.1 / r.2.2) : ℚ)
                       else JsVal.na)
               else none,
             averageDb := none, averageTemp := none }

/-- The skip-or-push row loop shared by the parsers: rows that parse are
appended in order, rows that fail are skipped. -/
def pushRows {α β : Type} (f : β → Option α) (l : List β) : List α :=
  l.foldl (fun acc b =>
    match f b with
    | none => acc
    | some y => acc ++ [y]) []

/-- Embedding of processDataWithDescriptiveTimes: parses a CSV whose first
column is named Zones and whose remaining columns are descriptive time
periods, pushing one record per accepted row. -/
def processDataWithDescriptiveTimes (csvString : Str) (zoneColumnNameUnused dataType : Str) :
    List ZoneRecord :=
  let lines := splitLinesJS (jsTrim csvString)
  if lines.length < 2 then []
  else
    let headers := (splitOnChar ',' (lines.headD [])).map jsTrim
    match headers.findIdx? (fun h => h = "Zones".data) with
    | none => []
    | some zoneColumnIndex =>
      let timeColumns :=
        (headers.enum.filter (fun p => p.1 ≠ zoneColumnIndex ∧ p.2 ≠ [])).map Prod.snd
      pushRows (descParseRow headers timeColumns zoneColumnIndex dataType) (lines.drop 1)

/-- One hour column of the hourly zone-row parser: builds the time series
keyed by the raw hour header and accumulates the office-hours sum and
count over hours 8 to 18; the fold runs over (index, hourStr) pairs. -/
def hourRowStep (dataValues : List Str) (acc : List (Str × Option ℚ) × ℚ × ℕ)
    (p : ℕ × Str) : List (Str × Option ℚ) × ℚ × ℕ :=
  match parseIntZ p.2 with
  | none => acc
  | some hour =>
    if hour < 0 ∨ hour > 23 then acc
    else
      let valStr := listGetD dataValues p.1 []
      match parseFloatQ valStr with
      | some numericValue =>
        let ts := objSet acc.1 p.2 (some numericValue)
        if 8 ≤ hour ∧ hour ≤ 18 then (ts, acc.2.1 + numericValue, acc.2.2 + 1)
        else (ts, acc.2.1, acc.2.2)
      | none => (objSet acc.1 p.2 none, acc.2.1, acc.2.2)

/-- Row loop of the hourly zone-row parser, with the target-zone filter
and the early break after the target zone has been found. -/
def processZoneRowLines (headers hourHeaders : List Str) (targetZoneId : Option Str)
    (dataType : Str) : List Str → List ZoneRecord
  | [] => []
  | line :: rest =>
    let currentRowValues := (splitOnChar ',' line).map jsTrim
    if currentRowValues.length ≠ headers.length then
      processZoneRowLines headers hourHeaders targetZoneId dataType rest
    else
      let currentZoneId := currentRowValues.headD []
      if currentZoneId = [] then
        processZoneRowLines headers hourHeaders targetZoneId dataType rest
      else if targetZoneId.any (fun t => currentZoneId ≠ t) then
        processZoneRowLines headers hourHeaders targetZoneId dataType rest
      else
        let dataValues := currentRowValues.drop 1
        let r := hourHeaders.enum.foldl (hourRowStep dataValues) ([], 0, 0)
        let average : JsVal :=
          if r.2.2 > 0 then JsVal.num (jsToFixed 1 (r.2.1 / (r.2.2 : ℚ))) else JsVal.na
        { zones := currentZoneId, timeSeries := r.1,
          averageLux := none, averageDb := none,
          averageTemp := if dataType = "Temperature".data then some average else none } ::
        (if targetZoneId.any (fun t => currentZoneId = t) then []
         else processZoneRowLines headers hourHeaders targetZoneId dataType rest)

/-- Embedding of processZoneRowHourlyData (rows are zones, remaining
columns are hour labels 0 to 23). -/
def processZoneRowHourlyData (csvString : Str) (targetZoneId : Option Str)
    (dataType : Str) : List ZoneRecord :=
  if csvString = [] then []
  else
    let lines := splitLinesJS (jsTrim csvString)
    if lines.length < 2 then []
    else
      let headers := (splitOnChar ',' (lines.headD [])).map jsTrim
      let hourHeaders := headers.drop 1
      if hourHeaders.length = 0 then []
      else processZoneRowLines headers hourHeaders targetZoneId dataType (lines.drop 1)

/-- Scans the first five lines for a header row that contains a
case-insensitive hour column and at least two fields. -/
def findHourHeaderRow (lines : List Str) : Option ℕ :=
  (List.range (min lines.length 5)).find? (fun i =>
    let hs := (splitOnChar ',' (listGetD lines i [])).map jsTrim
    (hs.map toLowerStr).contains "hour".data ∧ hs.length > 1)

/-- One data row of the hour-row zone-column parser: for a valid hour,
updates every zone column's time series and office-hours accumulator in
the shared per-zone store. -/
def zoneColRowStep (headers : List Str) (hourColumnIndex : ℕ) (zoneColumns : List Str)
    (m : List (Str × (List (Str × Option ℚ) × ℚ × ℕ))) (line : Str) :
    List (Str × (List (Str × Option ℚ) × ℚ × ℕ)) :=
  let values := (splitOnChar ',' line).map jsTrim
  if values.length ≠ headers.length then m
  else
    match parseIntZ (listGetD values hourColumnIndex []) with
    | none => m
    | some hour =>
      if hour < 0 ∨ hour > 23 then m
      else
        zoneColumns.foldl (fun m2 zoneName =>
          match headers.findIdx? (fun h => h = zoneName) with
          | none => m2
          | some zoneIndexInHeader =>
            let valStr := listGetD values zoneIndexInHeader []
            let entry := (objGet m2 zoneName).getD ([], 0, 0)
            match parseFloatQ valStr with
            | some numericValue =>
              let ts := objSet entry.1 (natToChars hour.toNat) (some numericValue)
              if 8 ≤ hour ∧ hour ≤ 18 then
                objSet m2 zoneName (ts, entry.2.1 + numericValue, entry.2.2 + 1)
              else objSet m2 zoneName (ts, entry.2.1, entry.2.2)
            | none =>
              objSet m2 zoneName
                (objSet entry.1 (natToChars hour.toNat) none, entry.2.1, entry.2.2)) m

/-- Embedding of processZoneColumnHourlyData (a row per hour, a column
per zone, header row located by scanning for an hour column). -/
def processZoneColumnHourlyData (csvString : Str) (dataType : Str) : List ZoneRecord :=
  if csvString = [] then []
  else
    let lines := splitLinesJS (jsTrim csvString)
    match findHourHeaderRow lines with
    | none => []
    | some headerRowIndex =>
      if lines.length < headerRowIndex + 2 then []
      else
        let headers := (splitOnChar ',' (listGetD lines headerRowIndex [])).map jsTrim
        match headers.findIdx? (fun h => toLowerStr h = "hour".data) with
        | none => []
        | some hourColumnIndex =>
          let zoneColumns :=
            (headers.enum.filter (fun p => p.1 ≠ hourColumnIndex ∧ p.2 ≠ [])).map Prod.snd
          if zoneColumns.length = 0 then []
          else
            let init := zoneColumns.foldl
              (fun m z => objSet m z (([] : List (Str × Option ℚ)), (0:ℚ), (0:ℕ))) []
            let filled := (lines.drop (headerRowIndex + 1)).foldl
              (zoneColRowStep headers hourColumnIndex zoneColumns) init
            filled.map (fun p =>
              let average : JsVal :=
                if p.2.2.2 > 0 then JsVal.num (jsToFixed 1 (p.2.2.1 / (p.2.2.2 : ℚ)))
                else JsVal.na
              { zones := p.1, timeSeries := p.2.1,
                averageLux := none,
                averageDb := if dataType = "Noise".data then some average else none,
                averageTemp := if dataType = "Temperature".data then some average else none })

/-- Reduce step of the nearest-ambient-temperature lookup: moves to the
current entry only when it is strictly closer, so the previous (earlier)
entry wins ties. -/
def closerEntry (x : ℚ) (prev curr : FeelsLikeEntry) : FeelsLikeEntry :=
  if |curr.ta - x| < |prev.ta - x| then curr else prev

/-- Embedding of getFeelsLikeTemperature: "N/A" for an empty table or a
non-numeric ambient temperature, otherwise the feelsLike value of the
entry with the closest ambient temperature, rounded to two decimals. -/
def getFeelsLikeTemperature (ambientTemp : Option JsVal)
    (feelsLikeLookupData : List FeelsLikeEntry) : JsVal :=
  match feelsLikeLookupData, ambientTemp with
  | [], _ => .na
  | _ :: _, none => .na
  | _ :: _, some .na => .na
  | h :: t, some (.num x) => .num (jsToFixed 2 ((t.foldl (closerEntry x) h).feelsLike))

/-- Embedding of predictIdealDuration, specialised to the timePeriodConfig
table (the only configuration passed at its call sites); the time series
is none when the zone has no record for the sensor. -/
def predictIdealDuration (timeSeries : Option (List (Str × Option ℚ)))
    (minPref maxPref : ℚ) : Str :=
  match timeSeries with
  | none => "N/A (No time series data for duration)".data
  | some ts =>
    if ts.length = 0 then "N/A (No time series data for duration)".data
    else
      let counts := ts.foldl (fun (acc : ℕ × ℕ) p =>
        match p.2, timePeriodConfig p.1 with
        | some value, some w =>
          if w > 0 then
            (if minPref ≤ value ∧ value ≤ maxPref then (acc.1 + 1, acc.2 + 1)
             else (acc.1, acc.2 + 1))
          else acc
        | _, _ => acc) (0, 0)
      if counts.2 = 0 then
        "Data available, but not for primary work hours for duration check".data
      else
        let percentage : ℚ := (counts.1 : ℚ) / (counts.2 : ℚ) * 100
        if percentage = 100 then "Consistently throughout main periods".data
        else if percentage ≥ 75 then "Most of the main periods".data
        else if percentage ≥ 50 then "About half of the main periods".data
        else if percentage > 0 then "Some of the main periods".data
        else "Infrequently during main periods".data

/-- Embedding of predictHourlyDuration for the default office-hours
window 8 to 18 with step 1, the only form the aggregator uses. -/
def predictHourlyDuration (timeSeries : Option (List (Str × Option ℚ)))
    (minPref maxPref : ℚ) : Str :=
  match timeSeries with
  | none => "N/A (No time series data for hourly duration)".data
  | some ts =>
    if ts.length = 0 then "N/A (No time series data for hourly duration)".data
    else
      let counts := (List.range 11).foldl (fun (acc : ℕ × ℕ) i =>
        match objGet ts (natToChars (8 + i)) with
        | some (some value) =>
          if minPref ≤ value ∧ value ≤ maxPref then (acc.1 + 1, acc.2 + 1)
          else (acc.1, acc.2 + 1)
        | _ => (acc.1, acc.2 + 1)) (0, 0)
      if counts.1 = counts.2 then "Consistently from 8:00-18:00".data
      else if counts.1 > 0 then
        "Approximately ".data ++ natToChars counts.1 ++ " hour(s) between 8:00-18:00".data
      else "Not typically within range between 8:00-18:00".data

/-- The three parsed datasets handed to the aggregator. -/
structure AllData where
  light : List ZoneRecord
  noise : List ZoneRecord
  temperature : List ZoneRecord

/-- The three threshold tables handed to the aggregator. -/
structure AllThresholds where
  lighting : Str → Option PrefRange
  noise : Str → Option PrefRange
  temperature : Str → Option PrefRange

/-- One scored zone as produced by the aggregator; optional object fields
of the source (rank, the per-criterion met flags, duration strings and
scores, and the debugging targetRanges record, all absent on placeholder
spots) are modelled with Option. -/
structure ScoredSpot where
  zoneId : Str
  light : JsVal
  noise : JsVal
  temperature : JsVal
  feelsLikeTemp : JsVal
  originalComfortScore : JNum
  comfortScore : ℚ
  criteriaMetCount : ℕ
  zoneImage : Str
  durationLight : Option Str
  durationNoise : Option Str
  durationTemp : Option Str
  scoreLight : Option ℚ
  scoreNoise : Option ℚ
  scoreTemp : Option ℚ
  metLight : Option Bool
  metNoise : Option Bool
  metTemp : Option Bool
  targetRanges : Option (Option PrefRange × Option PrefRange × Option PrefRange)
  rank : Option Str
deriving DecidableEq

/-- Lookup in the Map built from a record list keyed by zone id (the Map
constructor keeps the last entry for a repeated key). -/
def zoneMapGet (l : List ZoneRecord) (z : Str) : Option ZoneRecord :=
  l.foldl (fun acc r => if r.zones = z then some r else acc) none

/-- Set-union of zone names in first-occurrence order (models building a
JavaScript Set from the concatenated id lists). -/
def dedupFirst (l : List Str) : List Str :=
  l.foldl (fun acc z => if z ∈ acc then acc else acc ++ [z]) []

/-- Zone-image selection from the average lux value (the threshold
fallbacks of the source evaluate to these constants). -/
def selectZoneImage (lux : Option JsVal) : Str :=
  match lux with
  | some (.num v) =>
    if v ≥ 1001 then "Images/sunny-office-space.jpg".data
    else if v ≥ 501 then "Images/Well-lit-home-office.webp".data
    else if v ≥ 151 then "Images/Balanced-light-office-room.webp".data
    else if v ≥ 0 then "Images/Dim-lit-room.jpg".data
    else "Images/default-room.jpg".data
  | _ => "Images/default-room.jpg".data

/-- Data availability test of the aggregator: the average field exists
and holds a number. -/
def isNumAvail : Option JsVal → Bool
  | some (.num _) => true
  | _ => false

/-- The met-criteria flag: data available and within the range. -/
def metFlag (avg : Option JsVal) (r : PrefRange) : Bool :=
  match avg with
  | some (.num v) => decide (r.min ≤ v ∧ v ≤ r.max)
  | _ => false

/-- Criterion score of one optionally selected preference family: 0 when
the family is unselected (the score variable of the source keeps its
initial value), else the criterion score of the zone's average. -/
def famScore (target : Option PrefRange) (avg : Option JsVal) : ℚ :=
  match target with
  | none => 0
  | some r => calculateCriterionScore avg r.ideal r.min r.max (isNumAvail avg)

/-- Number of selected preference families. -/
def numSelected (tl tn tt : Option PrefRange) : ℕ :=
  (if tl.isSome then 1 else 0) + (if tn.isSome then 1 else 0) + (if tt.isSome then 1 else 0)

/-- Criteria-met count from the three optional met flags. -/
def metCount (ml mn mt : Option Bool) : ℕ :=
  (if ml = some true then 1 else 0) + (if mn = some true then 1 else 0) +
    (if mt = some true then 1 else 0)

/-- Embedding of the per-zone body of calculateFinalRecommendations:
scores the three optionally selected criteria and assembles the scored
spot of one zone. -/
def scoreZone (targetLightRange targetNoiseRange targetTemperatureRange : Option PrefRange)
    (feelsLikeLookupData : List FeelsLikeEntry)
    (zoneLightFull zoneNoiseFull zoneTempFull : Option ZoneRecord)
    (zoneName : Str) : ScoredSpot :=
  let currentAverageLux := zoneLightFull.bind (fun r => r.averageLux)
  let avgDbVal := zoneNoiseFull.bind (fun r => r.averageDb)
  let currentAverageTemp := zoneTempFull.bind (fun r => r.averageTemp)
  let lightScore := famScore targetLightRange currentAverageLux
  let noiseScore := famScore targetNoiseRange avgDbVal
  let tempScore := famScore targetTemperatureRange currentAverageTemp
  let metL := targetLightRange.map (metFlag currentAverageLux)
  let metN := targetNoiseRange.map (metFlag avgDbVal)
  let metT := targetTemperatureRange.map (metFlag currentAverageTemp)
  let criteriaMetCount := metCount metL metN metT
  let numSelectedPreferences :=
    numSelected targetLightRange targetNoiseRange targetTemperatureRange
  let originalTotalScore := lightScore + noiseScore + tempScore
  { zoneId := zoneName,
    light := currentAverageLux.getD .na,
    noise := avgDbVal.getD .na,
    temperature := currentAverageTemp.getD .na,
    feelsLikeTemp := getFeelsLikeTemperature currentAverageTemp feelsLikeLookupData,
    originalComfortScore := JNum.num originalTotalScore,
    comfortScore :=
      normalizeComfortScore (JNum.num originalTotalScore) criteriaMetCount numSelectedPreferences,
    criteriaMetCount := criteriaMetCount,
    zoneImage := selectZoneImage currentAverageLux,
    durationLight := targetLightRange.map (fun r =>
      predictIdealDuration (zoneLightFull.map (fun z => z.timeSeries)) r.min r.max),
    durationNoise := targetNoiseRange.map (fun r =>
      predictHourlyDuration (zoneNoiseFull.map (fun z => z.timeSeries)) r.min r.max),
    durationTemp := targetTemperatureRange.map (fun r =>
      predictHourlyDuration (zoneTempFull.map (fun z => z.timeSeries)) r.min r.max),
    scoreLight := some lightScore, scoreNoise := some noiseScore, scoreTemp := some tempScore,
    metLight := metL, metNoise := metN, metTemp := metT,
    targetRanges := some (targetLightRange, targetNoiseRange, targetTemperatureRange),
    rank := none }

/-- A placeholder spot of the aggregator; the label is the placeholder
kind (No Data, Fallback or Unavailable). -/
def placeholderSpot (n : ℕ) (label : Str) : ScoredSpot :=
  { zoneId := "Zone ".data ++ natToChars n ++ " (".data ++ label ++ ")".data,
    light := .na, noise := .na, temperature := .na, feelsLikeTemp := .na,
    originalComfortScore := JNum.negInf, comfortScore := 0, criteriaMetCount := 0,
    zoneImage := "Images/default-room.jpg".data,
    durationLight := none, durationNoise := none, durationTemp := none,
    scoreLight := none, scoreNoise := none, scoreTemp := none,
    metLight := none, metNoise := none, metTemp := none,
    targetRanges := none, rank := some "Info Unavailable".data }

/-- Comparison modelling the sort comparator of the aggregator: a true
result means the first spot may come no later than the second (higher
comfort score first, ties by higher criteriaMetCount). -/
def spotLE (a b : ScoredSpot) : Bool :=
  if a.comfortScore = b.comfortScore then b.criteriaMetCount ≤ a.criteriaMetCount
  else b.comfortScore < a.comfortScore

/-- Stable insertion of an element into a sorted list. -/
def insertB {α : Type} (le : α → α → Bool) (x : α) : List α → List α
  | [] => [x]
  | y :: ys => if le x y then x :: y :: ys else y :: insertB le x ys

/-- Stable insertion sort.  For a total transitive comparison this is the
unique sorted permutation keeping equivalent elements in input order, the
output of the stable Array.prototype.sort with the comparator above. -/
def insertionSortB {α : Type} (le : α → α → Bool) : List α → List α
  | [] => []
  | a :: l => insertB le a (insertionSortB le l)

/-- Rank assignment over the top-3 list of (index, spot) pairs. -/
def assignRank (p : ℕ × ScoredSpot) : ScoredSpot :=
  let spot := p.2
  if spot.zoneId ≠ [] ∧ containsSub "(No Data)".data spot.zoneId = false ∧
      containsSub "(Unavailable)".data spot.zoneId = false ∧
      containsSub "(Fallback)".data spot.zoneId = false then
    if p.1 = 0 then { spot with rank := some "Best Match".data }
    else if p.1 = 1 then { spot with rank := some "2nd Choice".data }
    else if p.1 = 2 then { spot with rank := some "3rd Choice".data }
    else spot
  else { spot with rank := some "Info Unavailable".data }

/-- The padding while-loop of the aggregator (it runs at most three
times): appends a Fallback placeholder while the list is shorter than 3
and also shorter than the number of zone names. -/
def padFallback : ℕ → List ScoredSpot → ℕ → List ScoredSpot
  | 0, spots, _ => spots
  | fuel + 1, spots, nZones =>
    if spots.length < 3 ∧ spots.length < nZones then
      padFallback fuel (spots ++ [placeholderSpot (spots.length + 1) "Fallback".data]) nZones
    else spots

/-- Embedding of calculateFinalRecommendations: scores every zone in the
union of the three datasets, sorts by comfort score with the stable
comparator, takes the top three, assigns ranks and pads exactly as the
source does (including its final dead fallback branch). -/
def calculateFinalRecommendations (lightingPref spaceUsagePref temperaturePref : Option Str)
    (allProcessedData : AllData) (allThresholds : AllThresholds)
    (feelsLikeLookupData : List FeelsLikeEntry) : List ScoredSpot :=
  let targetLightRange := lightingPref.bind allThresholds.lighting
  let targetNoiseRange := spaceUsagePref.bind allThresholds.noise
  let targetTemperatureRange := temperaturePref.bind allThresholds.temperature
  let allZoneNames := (dedupFirst (allProcessedData.light.map (fun d => d.zones) ++
    allProcessedData.noise.map (fun d => d.zones) ++
    allProcessedData.temperature.map (fun d => d.zones))).filter (fun z => z ≠ [])
  if allZoneNames = [] then
    [placeholderSpot 1 "No Data".data, placeholderSpot 2 "No Data".data,
      placeholderSpot 3 "No Data".data]
  else
    let scoredSpots := allZoneNames.map (fun zoneName =>
      scoreZone targetLightRange targetNoiseRange targetTemperatureRange feelsLikeLookupData
        (zoneMapGet allProcessedData.light zoneName)
        (zoneMapGet allProcessedData.noise zoneName)
        (zoneMapGet allProcessedData.temperature zoneName) zoneName)
    let sortedSpots := insertionSortB spotLE scoredSpots
    let finalTopSpots := (sortedSpots.take 3).enum.map assignRank
    let padded := padFallback 3 finalTopSpots allZoneNames.length
    if allZoneNames.length = 0 ∧ padded.length = 0 then
      [placeholderSpot 1 "Unavailable".data, placeholderSpot 2 "Unavailable".data,
        placeholderSpot 3 "Unavailable".data]
    else padded

/-- Contribution of one time-series entry to the spec-side weighted sum:
periods with a numeric value and a positive configured weight contribute
value times weight. -/
def wsStep (acc : ℚ) (p : Str × Option ℚ) : ℚ :=
  match p.2, timePeriodConfig p.1 with
  | some v, some w => if w > 0 then acc + v * w else acc
  | _, _ => acc

/-- Contribution of one time-series entry to the spec-side total weight. -/
def twStep (acc : ℚ) (p : Str × Option ℚ) : ℚ :=
  match p.2, timePeriodConfig p.1 with
  | some v, some w => if w > 0 then acc + w else acc
  | _, _ => acc

/-- Spec-side weighted sum over the periods of a parsed time series that
have a positive configured office-hours weight and a numeric value. -/
def weightedSumOf (ts : List (Str × Option ℚ)) : ℚ := ts.foldl wsStep 0

/-- Spec-side summed weight over the contributing periods. -/
def totalWeightOf (ts : List (Str × Option ℚ)) : ℚ := ts.foldl twStep 0

/-- The comfort score of a scored zone normalizes at most to 1 whenever
the criteria-met count does not exceed the number of selected
preferences; this bound is shared by several claims. -/
theorem normalize_bounds (originalScore : JNum) (c n : ℕ) (h : c ≤ n) :
    0 ≤ normalizeComfortScore originalScore c n ∧ normalizeComfortScore originalScore c n ≤ 1 := by
  cases originalScore with
  | negInf => simp [normalizeComfortScore]
  | num s =>
    simp only [normalizeComfortScore]
    by_cases hn : n = 0
    · rw [if_pos hn]
      refine ⟨?_, ?_⟩ <;> split_ifs <;> norm_num
    · rw [if_neg hn]
      by_cases hcn : c = n
      · rw [if_pos hcn]; norm_num
      · rw [if_neg hcn]
        by_cases hc : c > 0
        · rw [if_pos hc]
          have hn0 : (0:ℚ) < n := by exact_mod_cast Nat.pos_of_ne_zero hn
          have h1 : (c:ℚ)/n ≤ 1 := by
            rw [div_le_one hn0]
            exact_mod_cast h
          have h0 : (0:ℚ) ≤ (c:ℚ)/n := by positivity
          constructor <;> nlinarith
        · rw [if_neg hc]
          split_ifs with hr
          · norm_num
          · have hx0 : (0:ℚ) ≤ max 0 (min ((s - n * PENALTY_NO_DATA_IF_PREFERRED) /
                (n * MAX_SCORE_PER_CRITERION - n * PENALTY_NO_DATA_IF_PREFERRED)) 1) :=
              le_max_left _ _
            have hx1 : max 0 (min ((s - n * PENALTY_NO_DATA_IF_PREFERRED) /
                (n * MAX_SCORE_PER_CRITERION - n * PENALTY_NO_DATA_IF_PREFERRED)) 1) ≤ 1 :=
              max_le (by norm_num) (min_le_right _ _)
            constructor <;> nlinarith

/-- With at least one selected preference, a comfort score of exactly 1
forces every selected criterion to be met. -/
theorem normalize_eq_one_forces (s : ℚ) (c n : ℕ) (hn : n ≠ 0)
    (h1 : normalizeComfortScore (JNum.num s) c n = 1) : c = n := by
  by_contra hcn
  simp only [normalizeComfortScore, if_neg hn, if_neg hcn] at h1
  by_cases hc : c > 0
  · rw [if_pos hc] at h1
    have hn0 : (0:ℚ) < n := by exact_mod_cast Nat.pos_of_ne_zero hn
    have hq : (c:ℚ) / n = 1 := by linarith
    rw [div_eq_one_iff_eq (by positivity)] at hq
    exact hcn (by exact_mod_cast hq)
  · rw [if_neg hc] at h1
    split_ifs at h1 with hr
    · norm_num at h1
    · have hx1 : max 0 (min ((s - n * PENALTY_NO_DATA_IF_PREFERRED) /
          (n * MAX_SCORE_PER_CRITERION - n * PENALTY_NO_DATA_IF_PREFERRED)) 1) ≤ 1 :=
        max_le (by norm_num) (min_le_right _ _)
      nlinarith

/-- C1: calculateCriterionScore returns the no-data penalty -200 when data
is unavailable or the value is non-numeric or "N/A"; returns the maximal
score 100 when the value lies in [minPref, maxPref]; and otherwise
returns max(0, 100 - diff * 5) with diff the distance below minPref or
above maxPref. -/
theorem calculateCriterionScore_spec (actualValue : Option JsVal)
    (ideal minPref maxPref : ℚ) (isDataAvailable : Bool) :
    ((isDataAvailable = false ∨ actualValue = none ∨ actualValue = some JsVal.na) →
      calculateCriterionScore actualValue ideal minPref maxPref isDataAvailable = -200) ∧
    (∀ v : ℚ, actualValue = some (JsVal.num v) → isDataAvailable = true →
      ((minPref ≤ v ∧ v ≤ maxPref →
          calculateCriterionScore actualValue ideal minPref maxPref isDataAvailable = 100) ∧
        (¬(minPref ≤ v ∧ v ≤ maxPref) →
          calculateCriterionScore actualValue ideal minPref maxPref isDataAvailable =
            max 0 (100 - (if v < minPref then minPref - v else v - maxPref) * 5)))) := by
  constructor
  · rintro (rfl | rfl | rfl)
    · cases actualValue with
      | none => rfl
      | some jv => cases jv <;> rfl
    · cases isDataAvailable <;> rfl
    · cases isDataAvailable <;> rfl
  · rintro v rfl rfl
    constructor
    · intro h
      simp [calculateCriterionScore, MAX_SCORE_PER_CRITERION, h]
    · intro h
      simp [calculateCriterionScore, MAX_SCORE_PER_CRITERION, PENALTY_OUT_OF_RANGE_FACTOR, h]

/-- Witness for C1 at the spec's examples: 700 lux inside the well-lit
range scores 100, and 60 dB against the focus-work range 0-45 scores
max(0, 100 - 15*5). -/
theorem calculateCriterionScore_spec_witness :
    calculateCriterionScore (some (JsVal.num 700)) 750 501 1000 true = 100 ∧
    calculateCriterionScore (some (JsVal.num 60)) 40 0 45 true =
      max 0 (100 - (if (60:ℚ) < 0 then 0 - 60 else 60 - 45) * 5) := by
  constructor
  · exact ((calculateCriterionScore_spec (some (JsVal.num 700)) 750 501 1000 true).2
      700 rfl rfl).1 (by norm_num)
  · exact ((calculateCriterionScore_spec (some (JsVal.num 60)) 40 0 45 true).2
      60 rfl rfl).2 (by norm_num)

/-- C3 counterexample: with a criteriaMetCount exceeding the number of
selected preferences (5 met against 2 selected) normalizeComfortScore
returns 7/4, outside [0, 1]. -/
theorem normalizeComfortScore_above_one_cex :
    normalizeComfortScore (JNum.num 0) 5 2 = 7/4 ∧
      ¬(normalizeComfortScore (JNum.num 0) 5 2 ≤ 1) := by
  norm_num [normalizeComfortScore]

/-- C3 amended: for every original score and every criteriaMetCount not
exceeding the number of selected preferences (as the aggregator always
supplies), the normalized comfort score lies in [0, 1]. -/
theorem normalizeComfortScore_unit_interval (originalScore : JNum) (c n : ℕ) (h : c ≤ n) :
    0 ≤ normalizeComfortScore originalScore c n ∧ normalizeComfortScore originalScore c n ≤ 1 :=
  normalize_bounds originalScore c n h

/-- Witness for the amended C3 at a concrete input. -/
theorem normalizeComfortScore_unit_interval_witness :
    0 ≤ normalizeComfortScore (JNum.num 130) 1 3 ∧
      normalizeComfortScore (JNum.num 130) 1 3 ≤ 1 :=
  normalizeComfortScore_unit_interval (JNum.num 130) 1 3 (by norm_num)

/-- C4 counterexample: 31 and 32 are both outside [0, 10] and 32 is
strictly farther outside, yet both score 0 because the penalty clamps at
zero, so the farther value does not receive a strictly smaller score. -/
theorem calculateCriterionScore_strict_cex :
    ¬((0:ℚ) ≤ 31 ∧ (31:ℚ) ≤ 10) ∧ ¬((0:ℚ) ≤ 32 ∧ (32:ℚ) ≤ 10) ∧
    (if (31:ℚ) < 0 then (0:ℚ) - 31 else 31 - 10) <
      (if (32:ℚ) < 0 then (0:ℚ) - 32 else 32 - 10) ∧
    calculateCriterionScore (some (JsVal.num 31)) 5 0 10 true = 0 ∧
    calculateCriterionScore (some (JsVal.num 32)) 5 0 10 true = 0 ∧
    ¬(calculateCriterionScore (some (JsVal.num 32)) 5 0 10 true <
        calculateCriterionScore (some (JsVal.num 31)) 5 0 10 true) := by
  norm_num [calculateCriterionScore, MAX_SCORE_PER_CRITERION,
    PENALTY_OUT_OF_RANGE_FACTOR, max_def]

/-- C4 amended: with data available the score is 100 inside the range;
outside the range a strictly farther value never scores more, and scores
strictly less whenever the nearer value's score is still positive. -/
theorem calculateCriterionScore_monotone_outside (ideal minPref maxPref a b : ℚ)
    (ha : ¬(minPref ≤ a ∧ a ≤ maxPref)) (hb : ¬(minPref ≤ b ∧ b ≤ maxPref))
    (hfar : (if a < minPref then minPref - a else a - maxPref) <
      (if b < minPref then minPref - b else b - maxPref)) :
    (∀ v : ℚ, minPref ≤ v → v ≤ maxPref →
      calculateCriterionScore (some (JsVal.num v)) ideal minPref maxPref true = 100) ∧
    calculateCriterionScore (some (JsVal.num b)) ideal minPref maxPref true ≤
      calculateCriterionScore (some (JsVal.num a)) ideal minPref maxPref true ∧
    (0 < calculateCriterionScore (some (JsVal.num a)) ideal minPref maxPref true →
      calculateCriterionScore (some (JsVal.num b)) ideal minPref maxPref true <
        calculateCriterionScore (some (JsVal.num a)) ideal minPref maxPref true) := by
  refine ⟨fun v h1 h2 => by
    simp [calculateCriterionScore, MAX_SCORE_PER_CRITERION, h1, h2], ?_, ?_⟩
  · simp only [calculateCriterionScore, if_neg ha, if_neg hb,
      MAX_SCORE_PER_CRITERION, PENALTY_OUT_OF_RANGE_FACTOR]
    exact max_le_max le_rfl (by nlinarith)
  · intro hpos
    simp only [calculateCriterionScore, if_neg ha, if_neg hb,
      MAX_SCORE_PER_CRITERION, PENALTY_OUT_OF_RANGE_FACTOR] at hpos ⊢
    have h1 : (0:ℚ) <
        100 - (if a < minPref then minPref - a else a - maxPref) * 5 := by
      rcases lt_max_iff.mp hpos with h | h
      · exact absurd h (lt_irrefl 0)
      · exact h
    have h2 : 100 - (if b < minPref then minPref - b else b - maxPref) * 5 <
        100 - (if a < minPref then minPref - a else a - maxPref) * 5 := by nlinarith
    calc max 0 (100 - (if b < minPref then minPref - b else b - maxPref) * 5)
        < 100 - (if a < minPref then minPref - a else a - maxPref) * 5 := max_lt h1 h2
      _ ≤ max 0 (100 - (if a < minPref then minPref - a else a - maxPref) * 5) :=
          le_max_right _ _

/-- Witness for the amended C4: 11 and 12 against the range [0, 10] score
95 and 90. -/
theorem calculateCriterionScore_monotone_outside_witness :
    (∀ v : ℚ, (0:ℚ) ≤ v → v ≤ 10 →
      calculateCriterionScore (some (JsVal.num v)) 5 0 10 true = 100) ∧
    calculateCriterionScore (some (JsVal.num 12)) 5 0 10 true ≤
      calculateCriterionScore (some (JsVal.num 11)) 5 0 10 true ∧
    (0 < calculateCriterionScore (some (JsVal.num 11)) 5 0 10 true →
      calculateCriterionScore (some (JsVal.num 12)) 5 0 10 true <
        calculateCriterionScore (some (JsVal.num 11)) 5 0 10 true) :=
  calculateCriterionScore_monotone_outside 5 0 10 11 12 (by norm_num) (by norm_num) (by norm_num)

/-- C9: the aggregator is deterministic, equal inputs produce identical
ranked lists element for element. -/
theorem calculateFinalRecommendations_deterministic
    (lp1 sp1 tp1 lp2 sp2 tp2 : Option Str) (d1 d2 : AllData) (t1 t2 : AllThresholds)
    (f1 f2 : List FeelsLikeEntry) (hlp : lp1 = lp2) (hsp : sp1 = sp2) (htp : tp1 = tp2)
    (hd : d1 = d2) (ht : t1 = t2) (hf : f1 = f2) :
    calculateFinalRecommendations lp1 sp1 tp1 d1 t1 f1 =
      calculateFinalRecommendations lp2 sp2 tp2 d2 t2 f2 := by
  subst hlp hsp htp hd ht hf
  rfl

/-- Witness for C9: two runs on the same concrete input coincide. -/
theorem calculateFinalRecommendations_deterministic_witness :
    calculateFinalRecommendations (some "dim".data) none none
      ⟨[⟨"A".data, [], some (JsVal.num 700), none, none⟩], [], []⟩
      ⟨lightingThresholds, noiseWorkTypeThresholds, temperatureThresholds⟩ [] =
    calculateFinalRecommendations (some "dim".data) none none
      ⟨[⟨"A".data, [], some (JsVal.num 700), none, none⟩], [], []⟩
      ⟨lightingThresholds, noiseWorkTypeThresholds, temperatureThresholds⟩ [] :=
  calculateFinalRecommendations_deterministic _ _ _ _ _ _ _ _ _ _ _ _
    rfl rfl rfl rfl rfl rfl

/-- C2 fails on the code: with exactly one real zone the aggregator
returns a list of length 1, not 3.  The padding loop's guard also
requires the length to stay below the number of zones, so with one or two
real zones it never runs, contradicting the comment above it in the
source ("Ensure there are always 3 spots, adding placeholders if fewer
real recommendations exist"). -/
theorem calculateFinalRecommendations_one_zone_length :
    (calculateFinalRecommendations none none none
      ⟨[⟨"A".data, [], some (JsVal.num 700), none, none⟩], [], []⟩
      ⟨lightingThresholds, noiseWorkTypeThresholds, temperatureThresholds⟩ []).length = 1 := by
  rfl

/-- Membership in a stable insertion. -/
theorem mem_insertB {α : Type} (le : α → α → Bool) (x a : α) (l : List α) :
    x ∈ insertB le a l ↔ x = a ∨ x ∈ l := by
  induction l with
  | nil => simp [insertB]
  | cons y ys ih =>
    simp only [insertB]
    split_ifs with h
    · simp [List.mem_cons]
    · simp only [List.mem_cons, ih]
      tauto

/-- The stable sort is a permutation on membership. -/
theorem mem_insertionSortB {α : Type} (le : α → α → Bool) (x : α) (l : List α) :
    x ∈ insertionSortB le l ↔ x ∈ l := by
  induction l with
  | nil => simp [insertionSortB]
  | cons a l ih => simp [insertionSortB, mem_insertB, ih, List.mem_cons]

/-- Length of a stable insertion. -/
theorem length_insertB {α : Type} (le : α → α → Bool) (a : α) (l : List α) :
    (insertB le a l).length = l.length + 1 := by
  induction l with
  | nil => rfl
  | cons y ys ih =>
    simp only [insertB]
    split_ifs with h
    · simp
    · simp [ih]

/-- The stable sort preserves length. -/
theorem length_insertionSortB {α : Type} (le : α → α → Bool) (l : List α) :
    (insertionSortB le l).length = l.length := by
  induction l with
  | nil => rfl
  | cons a l ih => simp [insertionSortB, length_insertB, ih]

/-- Every element added by the padding loop is a Fallback placeholder. -/
theorem mem_padFallback (fuel : ℕ) (spots : List ScoredSpot) (n : ℕ) (x : ScoredSpot)
    (hx : x ∈ padFallback fuel spots n) :
    x ∈ spots ∨ ∃ k, x = placeholderSpot k "Fallback".data := by
  induction fuel generalizing spots with
  | zero => exact Or.inl hx
  | succ fuel ih =>
    simp only [padFallback] at hx
    split_ifs at hx with h
    · rcases ih _ hx with h2 | h2
      · rcases List.mem_append.mp h2 with h3 | h3
        · exact Or.inl h3
        · rw [List.mem_singleton] at h3
          exact Or.inr ⟨_, h3⟩
      · exact h2.elim (fun k hk => Or.inr ⟨k, hk⟩)
    · exact Or.inl hx

/-- Rank assignment changes only the rank field. -/
theorem assignRank_preserves (p : ℕ × ScoredSpot) :
    (assignRank p).zoneId = p.2.zoneId ∧
    (assignRank p).comfortScore = p.2.comfortScore ∧
    (assignRank p).originalComfortScore = p.2.originalComfortScore ∧
    (assignRank p).criteriaMetCount = p.2.criteriaMetCount ∧
    (assignRank p).metLight = p.2.metLight ∧
    (assignRank p).metNoise = p.2.metNoise ∧
    (assignRank p).metTemp = p.2.metTemp := by
  simp only [assignRank]
  split_ifs <;> simp

/-- With no preference selected a real zone scores exactly 0 raw, 2/5
normalized, and meets no criterion. -/
theorem scoreZone_noprefs (flt : List FeelsLikeEntry) (zl zn zt : Option ZoneRecord) (z : Str) :
    (scoreZone none none none flt zl zn zt z).originalComfortScore = JNum.num 0 ∧
    (scoreZone none none none flt zl zn zt z).comfortScore = 2/5 ∧
    (scoreZone none none none flt zl zn zt z).criteriaMetCount = 0 := by
  refine ⟨?_, ?_, ?_⟩
  · simp only [scoreZone]
    norm_num [famScore]
  · simp only [scoreZone]
    norm_num [famScore, metCount, numSelected, normalizeComfortScore,
      PENALTY_NO_DATA_IF_PREFERRED]
  · simp only [scoreZone]
    norm_num [famScore, metCount]
    exact fun h => Option.noConfusion h

/-- C10: with no preference family selected, every entry of the ranked
output is either a real zone with originalComfortScore 0, comfortScore
exactly 0.4 and zero criteria met, or a placeholder with score -Infinity
and comfortScore 0; the other no-preference buckets are unreachable
because the summed raw score of a real zone is always 0. -/
theorem noPreferences_all_two_fifths (allProcessedData : AllData)
    (allThresholds : AllThresholds) (flt : List FeelsLikeEntry) (spot : ScoredSpot)
    (hmem : spot ∈ calculateFinalRecommendations none none none
      allProcessedData allThresholds flt) :
    (spot.originalComfortScore = JNum.num 0 ∧ spot.comfortScore = 2/5 ∧
      spot.criteriaMetCount = 0) ∨
    (spot.originalComfortScore = JNum.negInf ∧ spot.comfortScore = 0) := by
  simp only [calculateFinalRecommendations, Option.bind] at hmem
  split at hmem
  · simp only [List.mem_cons, List.not_mem_nil, or_false] at hmem
    rcases hmem with rfl | rfl | rfl <;> exact Or.inr ⟨rfl, rfl⟩
  · split at hmem
    · simp only [List.mem_cons, List.not_mem_nil, or_false] at hmem
      rcases hmem with rfl | rfl | rfl <;> exact Or.inr ⟨rfl, rfl⟩
    · rcases mem_padFallback _ _ _ _ hmem with h | ⟨k, hk⟩
      · rcases List.mem_map.mp h with ⟨p, hp, hspot⟩
        have hsnd := List.mem_map_of_mem Prod.snd hp
        rw [List.enum_map_snd] at hsnd
        have hsort := List.mem_of_mem_take hsnd
        rw [mem_insertionSortB] at hsort
        rcases List.mem_map.mp hsort with ⟨z, hz, hpz⟩
        subst hspot
        left
        obtain ⟨-, hcs, hocs, hcmc, -, -, -⟩ := assignRank_preserves p
        rw [hocs, hcs, hcmc, ← hpz]
        exact scoreZone_noprefs _ _ _ _ _
      · right
        rw [hk]
        exact ⟨rfl, rfl⟩

/-- Witness for C10: the single output spot of a one-zone run with no
preferences selected. -/
theorem noPreferences_all_two_fifths_witness :
    ((assignRank (0, scoreZone none none none []
        (some ⟨"A".data, [], some (JsVal.num 700), none, none⟩) none none
        "A".data)).originalComfortScore = JNum.num 0 ∧
      (assignRank (0, scoreZone none none none []
        (some ⟨"A".data, [], some (JsVal.num 700), none, none⟩) none none
        "A".data)).comfortScore = 2/5 ∧
      (assignRank (0, scoreZone none none none []
        (some ⟨"A".data, [], some (JsVal.num 700), none, none⟩) none none
        "A".data)).criteriaMetCount = 0) ∨
    ((assignRank (0, scoreZone none none none []
        (some ⟨"A".data, [], some (JsVal.num 700), none, none⟩) none none
        "A".data)).originalComfortScore = JNum.negInf ∧
      (assignRank (0, scoreZone none none none []
        (some ⟨"A".data, [], some (JsVal.num 700), none, none⟩) none none
        "A".data)).comfortScore = 0) :=
  noPreferences_all_two_fifths
    ⟨[⟨"A".data, [], some (JsVal.num 700), none, none⟩], [], []⟩
    ⟨lightingThresholds, noiseWorkTypeThresholds, temperatureThresholds⟩ [] _
    (List.Mem.head _)

/-- The nearest-entry fold splits its input around the returned entry:
every entry before it is strictly farther from the query, every entry
after it is no closer. -/
theorem foldl_closerEntry_split (x : ℚ) (h : FeelsLikeEntry) (t : List FeelsLikeEntry) :
    ∃ pre post, h :: t = pre ++ (t.foldl (closerEntry x) h) :: post ∧
      (∀ y ∈ pre, |(t.foldl (closerEntry x) h).ta - x| < |y.ta - x|) ∧
      (∀ y ∈ post, |(t.foldl (closerEntry x) h).ta - x| ≤ |y.ta - x|) := by
  induction t generalizing h with
  | nil => exact ⟨[], [], rfl, by simp, by simp⟩
  | cons c t ih =>
    simp only [List.foldl_cons]
    by_cases hc : |c.ta - x| < |h.ta - x|
    · rw [show closerEntry x h c = c from if_pos hc]
      rcases ih c with ⟨pre, post, heq, hpre, hpost⟩
      set r := t.foldl (closerEntry x) c with hr
      refine ⟨h :: pre, post, ?_, ?_, hpost⟩
      · rw [List.cons_append, ← heq]
      · intro y hy
        rcases List.mem_cons.mp hy with rfl | hy2
        · have hle : |r.ta - x| ≤ |c.ta - x| := by
            cases pre with
            | nil =>
              have h2 := (List.cons.injEq _ _ _ _).mp heq.symm
              rw [h2.1]
            | cons p1 pre2 =>
              have h1 := (List.cons.injEq _ _ _ _).mp heq
              have h2 := hpre p1 (List.mem_cons_self _ _)
              rw [← h1.1] at h2
              exact le_of_lt h2
          exact lt_of_le_of_lt hle hc
        · exact hpre y hy2
    · rw [show closerEntry x h c = h from if_neg hc]
      rcases ih h with ⟨pre, post, heq, hpre, hpost⟩
      set r := t.foldl (closerEntry x) h with hr
      cases pre with
      | nil =>
        have h1 := (List.cons.injEq _ _ _ _).mp heq
        refine ⟨[], c :: post, ?_, by simp, ?_⟩
        · simp only [List.nil_append]
          rw [← h1.1, ← h1.2]
        · intro y hy
          rcases List.mem_cons.mp hy with rfl | hy2
          · rw [← h1.1]
            exact le_of_not_lt hc
          · exact hpost y hy2
      | cons p1 pre2 =>
        have h1 := (List.cons.injEq _ _ _ _).mp heq
        refine ⟨h :: c :: pre2, post, ?_, ?_, hpost⟩
        · rw [List.cons_append, List.cons_append, h1.2]
          rfl
        · intro y hy
          have hrh : |(t.foldl (closerEntry x) h).ta - x| < |h.ta - x| := by
            have := hpre p1 (List.mem_cons_self _ _)
            rwa [← h1.1] at this
          rcases List.mem_cons.mp hy with rfl | hy2
          · exact hrh
          · rcases List.mem_cons.mp hy2 with rfl | hy3
            · exact lt_of_lt_of_le hrh (le_of_not_lt hc)
            · exact hpre y (List.mem_cons_of_mem _ hy3)

/-- C6: getFeelsLikeTemperature returns "N/A" exactly when the lookup
table is empty or the ambient input is non-numeric; otherwise it returns
the feelsLike value, rounded to two decimal places, of the entry whose
ambientTemp has minimal absolute difference to the input, with exact ties
won by the entry earliest in array order (every earlier entry is strictly
farther, every later entry no closer). -/
theorem getFeelsLikeTemperature_spec (ambientTemp : Option JsVal)
    (feelsLikeLookupData : List FeelsLikeEntry) :
    (getFeelsLikeTemperature ambientTemp feelsLikeLookupData = JsVal.na ↔
      feelsLikeLookupData = [] ∨ ambientTemp = none ∨ ambientTemp = some JsVal.na) ∧
    (∀ x : ℚ, ambientTemp = some (JsVal.num x) → feelsLikeLookupData ≠ [] →
      ∃ e pre post,
        getFeelsLikeTemperature ambientTemp feelsLikeLookupData =
          JsVal.num (jsToFixed 2 e.feelsLike) ∧
        feelsLikeLookupData = pre ++ e :: post ∧
        (∀ y ∈ pre, |e.ta - x| < |y.ta - x|) ∧
        (∀ y ∈ post, |e.ta - x| ≤ |y.ta - x|)) := by
  constructor
  · cases feelsLikeLookupData with
    | nil =>
      cases ambientTemp with
      | none => simp [getFeelsLikeTemperature]
      | some v => cases v <;> simp [getFeelsLikeTemperature]
    | cons h t =>
      cases ambientTemp with
      | none => simp [getFeelsLikeTemperature]
      | some v => cases v <;> simp [getFeelsLikeTemperature]
  · rintro x rfl hne
    cases feelsLikeLookupData with
    | nil => exact absurd rfl hne
    | cons h t =>
      rcases foldl_closerEntry_split x h t with ⟨pre, post, heq, hpre, hpost⟩
      exact ⟨t.foldl (closerEntry x) h, pre, post, rfl, heq, hpre, hpost⟩

/-- Witness for C6 at the spec's example: in the table [(20,19),(25,26)]
the query 24 selects the entry (25,26). -/
theorem getFeelsLikeTemperature_spec_witness :
    ∃ e pre post,
      getFeelsLikeTemperature (some (JsVal.num 24))
          [⟨20, 19⟩, ⟨25, 26⟩] = JsVal.num (jsToFixed 2 e.feelsLike) ∧
      ([⟨20, 19⟩, ⟨25, 26⟩] : List FeelsLikeEntry) = pre ++ e :: post ∧
      (∀ y ∈ pre, |e.ta - 24| < |y.ta - 24|) ∧
      (∀ y ∈ post, |e.ta - 24| ≤ |y.ta - 24|) :=
  (getFeelsLikeTemperature_spec (some (JsVal.num 24)) [⟨20, 19⟩, ⟨25, 26⟩]).2 24 rfl
    (by simp)

/-- C8: each CSV parser is a total function into lists (the try/catch of
the source never lets an exception escape, and the embedding is total by
construction), and every structural failure yields the empty list: fewer
than two lines or a missing Zones column for the descriptive parser;
empty input, fewer than two lines, or no hour columns for the zone-row
parser; empty input or no header line containing an hour column within
the first five lines for the zone-column parser. -/
theorem parsers_structural_failure (csv zcn dataType : Str) (target : Option Str) :
    ((splitLinesJS (jsTrim csv)).length < 2 →
      processDataWithDescriptiveTimes csv zcn dataType = []) ∧
    (((splitOnChar ',' ((splitLinesJS (jsTrim csv)).headD [])).map jsTrim).findIdx?
        (fun h => h = "Zones".data) = none →
      processDataWithDescriptiveTimes csv zcn dataType = []) ∧
    (csv = [] → processZoneRowHourlyData csv target dataType = []) ∧
    ((splitLinesJS (jsTrim csv)).length < 2 →
      processZoneRowHourlyData csv target dataType = []) ∧
    ((((splitOnChar ',' ((splitLinesJS (jsTrim csv)).headD [])).map jsTrim).drop 1).length = 0 →
      processZoneRowHourlyData csv target dataType = []) ∧
    (csv = [] → processZoneColumnHourlyData csv dataType = []) ∧
    (findHourHeaderRow (splitLinesJS (jsTrim csv)) = none →
      processZoneColumnHourlyData csv dataType = []) := by
  refine ⟨?_, ?_, ?_, ?_, ?_, ?_, ?_⟩
  · intro h
    simp only [processDataWithDescriptiveTimes]
    rw [if_pos h]
  · intro h
    simp only [processDataWithDescriptiveTimes]
    by_cases h2 : (splitLinesJS (jsTrim csv)).length < 2
    · rw [if_pos h2]
    · rw [if_neg h2]
      split
      · rfl
      next i heq => exact Option.noConfusion (h.symm.trans heq)
  · intro h
    simp only [processZoneRowHourlyData]
    rw [if_pos h]
  · intro h
    simp only [processZoneRowHourlyData]
    split_ifs with h1 h2 h3 <;> first | rfl | exact absurd h h2
  · intro h
    simp only [processZoneRowHourlyData]
    split_ifs with h1 h2 h3 <;> first | rfl | exact absurd h h3
  · intro h
    simp only [processZoneColumnHourlyData]
    rw [if_pos h]
  · intro h
    simp only [processZoneColumnHourlyData]
    by_cases h1 : csv = []
    · rw [if_pos h1]
    · rw [if_neg h1]
      split
      · rfl
      next i heq => exact Option.noConfusion (h.symm.trans heq)

/-- Witness for C8: a one-line CSV, an empty string and a header-free CSV
make the three parsers return the empty list. -/
theorem parsers_structural_failure_witness :
    processDataWithDescriptiveTimes "x".data "Zones".data "Light".data = [] ∧
    processZoneRowHourlyData [] none "Temperature".data = [] ∧
    processZoneColumnHourlyData "noheader".data "Noise".data = [] :=
  ⟨(parsers_structural_failure "x".data "Zones".data "Light".data none).1 (by decide),
   (parsers_structural_failure [] "Zones".data "Temperature".data none).2.2.1 rfl,
   (parsers_structural_failure "noheader".data "Zones".data "Noise".data none).2.2.2.2.2.2
     (by decide)⟩

/-- The weighted-sum step commutes with shifting the accumulator. -/
theorem wsStep_shift (p : Str × Option ℚ) (a x : ℚ) : wsStep (a + x) p = wsStep a p + x := by
  rcases p with ⟨k, v⟩
  cases v <;> cases htp : timePeriodConfig k <;> simp [wsStep, htp] <;> split_ifs <;> ring

/-- The total-weight step commutes with shifting the accumulator. -/
theorem twStep_shift (p : Str × Option ℚ) (a x : ℚ) : twStep (a + x) p = twStep a p + x := by
  rcases p with ⟨k, v⟩
  cases v <;> cases htp : timePeriodConfig k <;> simp [twStep, htp] <;> split_ifs <;> ring

/-- Folding the weighted-sum step from any accumulator. -/
theorem foldl_wsStep_shift (l : List (Str × Option ℚ)) :
    ∀ a : ℚ, l.foldl wsStep a = a + l.foldl wsStep 0 := by
  induction l with
  | nil => intro a; simp
  | cons p l ih =>
    intro a
    simp only [List.foldl_cons]
    rw [ih (wsStep a p), ih (wsStep 0 p)]
    have := wsStep_shift p 0 a
    rw [zero_add] at this
    rw [this]
    ring

/-- Folding the total-weight step from any accumulator. -/
theorem foldl_twStep_shift (l : List (Str × Option ℚ)) :
    ∀ a : ℚ, l.foldl twStep a = a + l.foldl twStep 0 := by
  induction l with
  | nil => intro a; simp
  | cons p l ih =>
    intro a
    simp only [List.foldl_cons]
    rw [ih (twStep a p), ih (twStep 0 p)]
    have := twStep_shift p 0 a
    rw [zero_add] at this
    rw [this]
    ring

/-- Appending one entry to a time series adds its step contribution. -/
theorem weightedSumOf_append (ts : List (Str × Option ℚ)) (p : Str × Option ℚ) :
    weightedSumOf (ts ++ [p]) = wsStep (weightedSumOf ts) p := by
  simp [weightedSumOf, List.foldl_append]

/-- Appending one entry adds its weight contribution. -/
theorem totalWeightOf_append (ts : List (Str × Option ℚ)) (p : Str × Option ℚ) :
    totalWeightOf (ts ++ [p]) = twStep (totalWeightOf ts) p := by
  simp [totalWeightOf, List.foldl_append]

/-- Setting a fresh key in a JavaScript object appends it. -/
theorem objSet_append {α : Type} (m : List (Str × α)) (k : Str) (v : α)
    (hk : ∀ p ∈ m, p.1 ≠ k) : objSet m k v = m ++ [(k, v)] := by
  induction m with
  | nil => rfl
  | cons q m ih =>
    simp only [objSet]
    rw [if_neg (hk q (List.mem_cons_self _ _))]
    rw [ih (fun p hp => hk p (List.mem_cons_of_mem _ hp))]
    rfl

/-- A fresh time column either leaves the row accumulator unchanged (an
unknown column) or appends one entry and adds its step contributions. -/
theorem descRowStep_spec (headers values : List Str) (acc : List (Str × Option ℚ) × ℚ × ℚ)
    (col : Str) (hfresh : ∀ p ∈ acc.1, p.1 ≠ col) :
    descRowStep headers values acc col = acc ∨
    ∃ o : Option ℚ, descRowStep headers values acc col =
      (acc.1 ++ [(col, o)], wsStep acc.2.1 (col, o), twStep acc.2.2 (col, o)) := by
  simp only [descRowStep]
  cases hidx : headers.findIdx? (fun h => h = col) with
  | none => exact Or.inl rfl
  | some idx =>
    cases hpf : parseFloatQ (listGetD values idx []) with
    | none =>
      refine Or.inr ⟨none, ?_⟩
      simp only [hpf]
      rw [objSet_append acc.1 col none hfresh]
      simp [wsStep, twStep]
    | some v =>
      refine Or.inr ⟨some v, ?_⟩
      simp only [hpf]
      cases htp : timePeriodConfig col with
      | none =>
        simp only [htp]
        rw [objSet_append acc.1 col (some v) hfresh]
        simp [wsStep, twStep, htp]
      | some w =>
        simp only [htp]
        split_ifs with hw <;>
          rw [objSet_append acc.1 col (some v) hfresh] <;>
          simp [wsStep, twStep, htp, hw]

/-- Over distinct time columns, the row fold's running weighted sum and
total weight agree with the spec-side sums over the time series it
builds. -/
theorem descRow_fold_spec (headers values : List Str) :
    ∀ (cols : List Str) (acc : List (Str × Option ℚ) × ℚ × ℚ),
      cols.Nodup →
      (∀ p ∈ acc.1, p.1 ∉ cols) →
      acc.2.1 = weightedSumOf acc.1 →
      acc.2.2 = totalWeightOf acc.1 →
      (cols.foldl (descRowStep headers values) acc).2.1 =
          weightedSumOf (cols.foldl (descRowStep headers values) acc).1 ∧
        (cols.foldl (descRowStep headers values) acc).2.2 =
          totalWeightOf (cols.foldl (descRowStep headers values) acc).1 := by
  intro cols
  induction cols with
  | nil => exact fun acc _ _ h1 h2 => ⟨h1, h2⟩
  | cons col cols ih =>
    intro acc hnd hkeys h1 h2
    simp only [List.foldl_cons]
    have hnd2 : cols.Nodup := (List.nodup_cons.mp hnd).2
    have hcolcols : col ∉ cols := (List.nodup_cons.mp hnd).1
    have hfresh : ∀ p ∈ acc.1, p.1 ≠ col := fun p hp he =>
      (hkeys p hp) (he ▸ List.mem_cons_self col cols)
    have hkeys2 : ∀ p ∈ acc.1, p.1 ∉ cols := fun p hp hin =>
      (hkeys p hp) (List.mem_cons_of_mem _ hin)
    rcases descRowStep_spec headers values acc col hfresh with hstep | ⟨o, hstep⟩
    · rw [hstep]
      exact ih acc hnd2 hkeys2 h1 h2
    · rw [hstep]
      apply ih
      · exact hnd2
      · intro p hp
        rcases List.mem_append.mp hp with hp2 | hp2
        · exact hkeys2 p hp2
        · rw [List.mem_singleton] at hp2
          rw [hp2]
          exact hcolcols
      · show wsStep acc.2.1 (col, o) = weightedSumOf (acc.1 ++ [(col, o)])
        rw [weightedSumOf_append, h1]
      · show twStep acc.2.2 (col, o) = totalWeightOf (acc.1 ++ [(col, o)])
        rw [totalWeightOf_append, h2]

/-- Members of a skip-or-push fold come from the initial list or from a
successfully parsed element. -/
theorem mem_foldl_pushOpt {α β : Type} (f : β → Option α) (l : List β) (init : List α) (x : α)
    (hx : x ∈ l.foldl (fun acc b =>
      match f b with
      | none => acc
      | some y => acc ++ [y]) init) :
    x ∈ init ∨ ∃ b ∈ l, f b = some x := by
  induction l generalizing init with
  | nil => exact Or.inl hx
  | cons b l ih =>
    simp only [List.foldl_cons] at hx
    rcases ih _ hx with h | ⟨b2, hb2, hfb2⟩
    · cases hf : f b with
      | none =>
        rw [hf] at h
        exact Or.inl h
      | some y =>
        rw [hf] at h
        rcases List.mem_append.mp h with h2 | h2
        · exact Or.inl h2
        · rw [List.mem_singleton] at h2
          subst h2
          exact Or.inr ⟨b, List.mem_cons_self _ _, hf⟩
    · exact Or.inr ⟨b2, List.mem_cons_of_mem _ hb2, hfb2⟩

/-- Every member of the pushed rows comes from a successfully parsed
input row. -/
theorem mem_pushRows {α β : Type} (f : β → Option α) (l : List β) (x : α)
    (hx : x ∈ pushRows f l) : ∃ b ∈ l, f b = some x := by
  rcases mem_foldl_pushOpt f l [] x hx with h | h
  · cases h
  · exact h

/-- The filtered time columns form a sublist of the headers, so distinct
headers give distinct time columns. -/
theorem timeCols_nodup (headers : List Str) (i : ℕ) (hnd : headers.Nodup) :
    ((headers.enum.filter (fun p => p.1 ≠ i ∧ p.2 ≠ [])).map Prod.snd).Nodup := by
  have h1 : (headers.enum.filter (fun p => decide (p.1 ≠ i ∧ p.2 ≠ []))).Sublist headers.enum :=
    List.filter_sublist _
  have h2 := h1.map Prod.snd
  rw [List.enum_map_snd] at h2
  exact hnd.sublist h2

/-- The weight contribution of one entry is never negative. -/
theorem twStep_zero_nonneg (p : Str × Option ℚ) : 0 ≤ twStep 0 p := by
  rcases p with ⟨k, v⟩
  cases v <;> cases htp : timePeriodConfig k <;>
    simp [twStep, htp] <;> split_ifs with hw <;> linarith

/-- The total weight of a time series is never negative. -/
theorem totalWeightOf_nonneg (ts : List (Str × Option ℚ)) : 0 ≤ totalWeightOf ts := by
  induction ts with
  | nil => norm_num [totalWeightOf]
  | cons p ts ih =>
    show 0 ≤ (p :: ts).foldl twStep 0
    rw [List.foldl_cons, foldl_twStep_shift]
    have := twStep_zero_nonneg p
    have h2 : (0:ℚ) ≤ ts.foldl twStep 0 := ih
    linarith

/-- Splitting the total weight of a cons. -/
theorem totalWeightOf_cons (p : Str × Option ℚ) (ts : List (Str × Option ℚ)) :
    totalWeightOf (p :: ts) = twStep 0 p + totalWeightOf ts := by
  show (p :: ts).foldl twStep 0 = _
  rw [List.foldl_cons, foldl_twStep_shift]
  rfl

/-- The total weight vanishes exactly when no period with a numeric value
has a positive configured weight. -/
theorem totalWeightOf_eq_zero_iff (ts : List (Str × Option ℚ)) :
    totalWeightOf ts = 0 ↔
      ∀ p ∈ ts, ∀ v, p.2 = some v → ∀ w, timePeriodConfig p.1 = some w → ¬(w > 0) := by
  induction ts with
  | nil => simp [totalWeightOf]
  | cons p ts ih =>
    rw [totalWeightOf_cons]
    constructor
    · intro h0
      have hnn1 := twStep_zero_nonneg p
      have hnn2 := totalWeightOf_nonneg ts
      have hz1 : twStep 0 p = 0 := by linarith
      have hz2 : totalWeightOf ts = 0 := by linarith
      intro q hq v hv w hw hwpos
      rcases List.mem_cons.mp hq with rfl | hq2
      · rw [show twStep 0 q = w by simp [twStep, hv, hw, if_pos hwpos]] at hz1
        exact absurd hz1 (ne_of_gt hwpos)
      · exact (ih.mp hz2) q hq2 v hv w hw hwpos
    · intro hall
      have h1 : twStep 0 p = 0 := by
        rcases hp2 : p.2 with _ | v
        · simp [twStep, hp2]
        · rcases htp : timePeriodConfig p.1 with _ | w
          · simp [twStep, hp2, htp]
          · have := hall p (List.mem_cons_self _ _) v hp2 w htp
            simp [twStep, hp2, htp, if_neg this]
      have h2 : totalWeightOf ts = 0 :=
        ih.mpr (fun q hq => hall q (List.mem_cons_of_mem _ hq))
      rw [h1, h2, add_zero]

/-- A successfully parsed Light row carries the rounded weighted
average. -/
theorem descParseRow_average (headers timeCols : List Str) (zci : ℕ) (line : Str)
    (rec : ZoneRecord) (hnd : timeCols.Nodup)
    (h : descParseRow headers timeCols zci "Light".data line = some rec) :
    rec.averageLux = some (if totalWeightOf rec.timeSeries > 0
      then JsVal.num ((jsMathRound (weightedSumOf rec.timeSeries /
        totalWeightOf rec.timeSeries) : ℤ) : ℚ)
      else JsVal.na) := by
  simp only [descParseRow] at h
  by_cases h1 : ((splitOnChar ',' line).map jsTrim).length ≠ headers.length
  · rw [if_pos h1] at h
    exact Option.noConfusion h
  · rw [if_neg h1] at h
    by_cases h2 : listGetD ((splitOnChar ',' line).map jsTrim) zci [] = []
    · rw [if_pos h2] at h
      exact Option.noConfusion h
    · rw [if_neg h2] at h
      have hrec := (Option.some.injEq _ _).mp h
      obtain ⟨hws, htw⟩ := descRow_fold_spec headers ((splitOnChar ',' line).map jsTrim) timeCols
        ([], 0, 0) hnd (by intro p hp; cases hp) rfl rfl
      subst hrec
      simp only [if_true]
      rw [hws, htw]

/-- C7 amended: for every descriptive CSV whose trimmed header names are
distinct, the average of each parsed Light row equals Math.round of (the
sum over periods with positive configured office-hours weight of value
times weight, divided by the sum of those weights), and is "N/A" exactly
when no positive-weight period has a numeric value (total weight zero). -/
theorem processDescriptive_average_spec (csv zcn : Str) (rec : ZoneRecord)
    (hnd : ((splitOnChar ',' ((splitLinesJS (jsTrim csv)).headD [])).map jsTrim).Nodup)
    (hmem : rec ∈ processDataWithDescriptiveTimes csv zcn "Light".data) :
    rec.averageLux = some (if totalWeightOf rec.timeSeries > 0
      then JsVal.num ((jsMathRound (weightedSumOf rec.timeSeries /
        totalWeightOf rec.timeSeries) : ℤ) : ℚ)
      else JsVal.na) ∧
    (totalWeightOf rec.timeSeries = 0 ↔
      ∀ p ∈ rec.timeSeries, ∀ v, p.2 = some v →
        ∀ w, timePeriodConfig p.1 = some w → ¬(w > 0)) := by
  refine ⟨?_, totalWeightOf_eq_zero_iff rec.timeSeries⟩
  simp only [processDataWithDescriptiveTimes] at hmem
  split at hmem
  · cases hmem
  · split at hmem
    · cases hmem
    · rcases mem_pushRows _ _ _ hmem with ⟨line, hline, hrow⟩
      exact descParseRow_average _ _ _ _ _ (timeCols_nodup _ _ hnd) hrow

/-- C7 counterexample: for the descriptive row A with Morning value 1.5
the claim's weighted quotient is 1.5, but the parser stores
Math.round(1.5) = 2, so the computed average does not equal the weighted
sum divided by the summed weights. -/
theorem processDescriptive_rounds_cex :
    (processDataWithDescriptiveTimes "Zones,Morning\nA,1.5".data "Zones".data
        "Light".data).map (fun r => r.averageLux) = [some (JsVal.num 2)] ∧
    (processDataWithDescriptiveTimes "Zones,Morning\nA,1.5".data "Zones".data
        "Light".data).map
        (fun r => weightedSumOf r.timeSeries / totalWeightOf r.timeSeries) = [3/2] ∧
    some (JsVal.num 2) ≠ some (JsVal.num (3/2)) := by
  refine ⟨?_, ?_, by norm_num⟩ <;>
    norm_num +decide [processDataWithDescriptiveTimes, pushRows, descParseRow, splitLinesJS,
      stripCRs, splitOnChar, dropTrailingCR, jsTrim, jsIsWS, descRowStep, parseFloatQ,
      digitsToNat, pow10, qpow10Z, timePeriodConfig, objSet, jsMathRound, List.findIdx?,
      listGetD, List.enum_cons, List.enum_nil, List.filter_cons, List.filter_nil,
      List.takeWhile_cons, List.takeWhile_nil, List.dropWhile_cons, List.dropWhile_nil,
      weightedSumOf, totalWeightOf, wsStep, twStep,
      show ('1'.toNat : ℕ) = 49 from rfl, show ('5'.toNat : ℕ) = 53 from rfl]

/-- Witness for the amended C7 at the same concrete CSV. -/
theorem processDescriptive_average_spec_witness :
    (⟨"A".data, [("Morning".data, some ((3:ℚ)/2))], some (JsVal.num 2), none, none⟩ :
        ZoneRecord).averageLux =
      some (if totalWeightOf (⟨"A".data, [("Morning".data, some ((3:ℚ)/2))],
          some (JsVal.num 2), none, none⟩ : ZoneRecord).timeSeries > 0
        then JsVal.num ((jsMathRound (weightedSumOf (⟨"A".data,
            [("Morning".data, some ((3:ℚ)/2))], some (JsVal.num 2), none, none⟩ :
            ZoneRecord).timeSeries /
          totalWeightOf (⟨"A".data, [("Morning".data, some ((3:ℚ)/2))],
            some (JsVal.num 2), none, none⟩ : ZoneRecord).timeSeries) : ℤ) : ℚ)
        else JsVal.na) ∧
    (totalWeightOf (⟨"A".data, [("Morning".data, some ((3:ℚ)/2))],
        some (JsVal.num 2), none, none⟩ : ZoneRecord).timeSeries = 0 ↔
      ∀ p ∈ (⟨"A".data, [("Morning".data, some ((3:ℚ)/2))],
          some (JsVal.num 2), none, none⟩ : ZoneRecord).timeSeries,
        ∀ v, p.2 = some v → ∀ w, timePeriodConfig p.1 = some w → ¬(w > 0)) :=
  processDescriptive_average_spec "Zones,Morning\nA,1.5".data "Zones".data
    ⟨"A".data, [("Morning".data, some ((3:ℚ)/2))], some (JsVal.num 2), none, none⟩
    (by decide)
    (by norm_num +decide [processDataWithDescriptiveTimes, pushRows, descParseRow, splitLinesJS,
      stripCRs, splitOnChar, dropTrailingCR, jsTrim, jsIsWS, descRowStep, parseFloatQ,
      digitsToNat, pow10, qpow10Z, timePeriodConfig, objSet, jsMathRound, List.findIdx?,
      listGetD, List.enum_cons, List.enum_nil, List.filter_cons, List.filter_nil,
      List.takeWhile_cons, List.takeWhile_nil, List.dropWhile_cons, List.dropWhile_nil,
      show ('1'.toNat : ℕ) = 49 from rfl, show ('5'.toNat : ℕ) = 53 from rfl])

/-- find? only depends on the predicate's values on the list. -/
theorem find?_congr_mem {α : Type} (p q : α → Bool) :
    ∀ l : List α, (∀ x ∈ l, p x = q x) → l.find? p = l.find? q := by
  intro l
  induction l with
  | nil => intro _; rfl
  | cons a l ih =>
    intro h
    rw [List.find?_cons, List.find?_cons, h a (List.mem_cons_self _ _),
      ih (fun x hx => h x (List.mem_cons_of_mem _ hx))]

/-- For a total transitive comparison, the head of the stable sort is the
first element of the input that dominates the whole input. -/
theorem head?_insertionSortB {α : Type} (le : α → α → Bool)
    (htot : ∀ a b, le a b = true ∨ le b a = true)
    (htrans : ∀ a b c, le a b = true → le b c = true → le a c = true) :
    ∀ l : List α, (insertionSortB le l).head? = l.find? (fun x => l.all (le x)) := by
  have hrefl : ∀ a, le a a = true := fun a => (htot a a).elim id id
  intro l
  induction l with
  | nil => rfl
  | cons a l ih =>
    rw [show insertionSortB le (a :: l) = insertB le a (insertionSortB le l) from rfl]
    by_cases hA : l.all (le a) = true
    · have hpa : (a :: l).all (le a) = true := by
        simp only [List.all_cons, hrefl a, hA, Bool.and_self]
      rw [List.find?_cons]
      simp only [hpa]
      cases hs : insertionSortB le l with
      | nil => rfl
      | cons m rest =>
        have hm : l.find? (fun x => l.all (le x)) = some m := by
          rw [← ih, hs]
          rfl
        have hmem : m ∈ l := List.mem_of_find?_eq_some hm
        have ham : le a m = true := List.all_eq_true.mp hA m hmem
        rw [show insertB le a (m :: rest) = a :: m :: rest from if_pos ham]
        rfl
    · have hne : l ≠ [] := fun he => hA (by rw [he]; rfl)
      have hs2 : insertionSortB le l ≠ [] := by
        intro he
        apply hne
        have hlen := length_insertionSortB le l
        rw [he] at hlen
        exact List.length_eq_zero.mp hlen.symm
      rcases List.exists_cons_of_ne_nil hs2 with ⟨m, rest, hs⟩
      have hm : l.find? (fun x => l.all (le x)) = some m := by
        rw [← ih, hs]
        rfl
      have hmmax := @List.find?_some _ (fun x => l.all (le x)) m l hm
      have ham : ¬(le a m = true) := by
        intro ham2
        apply hA
        rw [List.all_eq_true]
        intro y hy
        exact htrans a m y ham2 (List.all_eq_true.mp hmmax y hy)
      have hy1 : ∃ y ∈ l, ¬ le a y = true := by
        simpa [List.all_eq_true] using hA
      rcases hy1 with ⟨y1, hy1mem, hay1⟩
      have hy1a : le y1 a = true := (htot a y1).elim (fun h => absurd h hay1) id
      rw [hs, show insertB le a (m :: rest) = m :: insertB le a rest from if_neg ham]
      rw [List.find?_cons]
      have hpa : (a :: l).all (le a) = false := by
        rw [List.all_cons]
        cases hA2 : l.all (le a) with
        | false => rw [Bool.and_false]
        | true => exact absurd hA2 hA
      simp only [hpa]
      have hcongr : ∀ x ∈ l, (fun x => (a :: l).all (le x)) x = (fun x => l.all (le x)) x := by
        intro x hx
        simp only [List.all_cons]
        cases hp1 : l.all (le x) with
        | false => rw [Bool.and_false]
        | true =>
          rw [htrans x y1 a (List.all_eq_true.mp hp1 y1 hy1mem) hy1a, Bool.true_and]
      rw [find?_congr_mem _ _ l hcongr, hm]
      rfl

/-- The sort comparator is total. -/
theorem spotLE_total (a b : ScoredSpot) : spotLE a b = true ∨ spotLE b a = true := by
  simp only [spotLE]
  by_cases h : a.comfortScore = b.comfortScore
  · rw [if_pos h, if_pos h.symm]
    simp only [decide_eq_true_eq]
    omega
  · rw [if_neg h, if_neg (Ne.symm h)]
    simp only [decide_eq_true_eq]
    rcases lt_or_gt_of_ne h with h2 | h2
    · right
      exact h2
    · left
      exact h2

/-- The sort comparator is transitive. -/
theorem spotLE_trans (a b c : ScoredSpot) (h1 : spotLE a b = true) (h2 : spotLE b c = true) :
    spotLE a c = true := by
  simp only [spotLE] at h1 h2 ⊢
  by_cases e1 : a.comfortScore = b.comfortScore <;>
    by_cases e2 : b.comfortScore = c.comfortScore
  · rw [if_pos e1] at h1
    rw [if_pos e2] at h2
    rw [if_pos (e1.trans e2)]
    simp only [decide_eq_true_eq] at h1 h2 ⊢
    omega
  · rw [if_pos e1] at h1
    rw [if_neg e2] at h2
    simp only [decide_eq_true_eq] at h2
    have e3 : a.comfortScore ≠ c.comfortScore := fun he => e2 (e1.symm.trans he).symm.symm
    rw [if_neg e3]
    simp only [decide_eq_true_eq]
    rw [← e1] at h2
    exact h2
  · rw [if_neg e1] at h1
    rw [if_pos e2] at h2
    simp only [decide_eq_true_eq] at h1
    have e3 : a.comfortScore ≠ c.comfortScore := fun he => e1 (he.trans e2.symm)
    rw [if_neg e3]
    simp only [decide_eq_true_eq]
    rw [← e2]
    exact h1
  · rw [if_neg e1] at h1
    rw [if_neg e2] at h2
    simp only [decide_eq_true_eq] at h1 h2
    have e3 : a.comfortScore ≠ c.comfortScore := fun he => by
      rw [he] at h1
      exact absurd (h2.trans h1) (lt_irrefl _)
    rw [if_neg e3]
    simp only [decide_eq_true_eq]
    exact h2.trans h1

/-- The criteria-met count never exceeds the number of selected
preference families. -/
theorem metCount_le_numSelected (tl tn tt : Option PrefRange) (f g h : PrefRange → Bool) :
    metCount (tl.map f) (tn.map g) (tt.map h) ≤ numSelected tl tn tt := by
  cases tl <;> cases tn <;> cases tt <;>
    simp [metCount, numSelected] <;> split_ifs <;> omega

/-- The comfort score of every scored zone is at most 1. -/
theorem scoreZone_comfort_le_one (tl tn tt : Option PrefRange) (flt : List FeelsLikeEntry)
    (zl zn zt : Option ZoneRecord) (z : Str) :
    (scoreZone tl tn tt flt zl zn zt z).comfortScore ≤ 1 := by
  have hle := metCount_le_numSelected tl tn tt
    (metFlag (zl.bind (fun r => r.averageLux)))
    (metFlag (zn.bind (fun r => r.averageDb)))
    (metFlag (zt.bind (fun r => r.averageTemp)))
  exact (normalize_bounds (JNum.num _) _ _ hle).2

/-- A full met count over three selected families forces all flags. -/
theorem metCount_three (b1 b2 b3 : Bool)
    (h : metCount (some b1) (some b2) (some b3) = 3) :
    b1 = true ∧ b2 = true ∧ b3 = true := by
  cases b1 <;> cases b2 <;> cases b3 <;> simp_all [metCount]

/-- With three selected families, a comfort score of 1 forces all three
met flags. -/
theorem scoreZone_comfort_one_met (lr nr tr : PrefRange) (flt : List FeelsLikeEntry)
    (zl zn zt : Option ZoneRecord) (z : Str)
    (h1 : (scoreZone (some lr) (some nr) (some tr) flt zl zn zt z).comfortScore = 1) :
    (scoreZone (some lr) (some nr) (some tr) flt zl zn zt z).criteriaMetCount = 3 ∧
    (scoreZone (some lr) (some nr) (some tr) flt zl zn zt z).metLight = some true ∧
    (scoreZone (some lr) (some nr) (some tr) flt zl zn zt z).metNoise = some true ∧
    (scoreZone (some lr) (some nr) (some tr) flt zl zn zt z).metTemp = some true := by
  have hc3 : (scoreZone (some lr) (some nr) (some tr) flt zl zn zt z).criteriaMetCount = 3 := by
    have := normalize_eq_one_forces _
      (metCount ((some lr).map (metFlag (zl.bind (fun r => r.averageLux))))
        ((some nr).map (metFlag (zn.bind (fun r => r.averageDb))))
        ((some tr).map (metFlag (zt.bind (fun r => r.averageTemp)))))
      (numSelected (some lr) (some nr) (some tr)) (by simp [numSelected]) h1
    exact this
  refine ⟨hc3, ?_⟩
  have hflags := metCount_three _ _ _ hc3
  exact ⟨congrArg some hflags.1, congrArg some hflags.2.1, congrArg some hflags.2.2⟩

/-- A successful zone-map lookup means some record carries that zone
id. -/
theorem zoneMapGet_foldl_mem (z : Str) (r : ZoneRecord) :
    ∀ (l : List ZoneRecord) (acc : Option ZoneRecord),
      l.foldl (fun a rec => if rec.zones = z then some rec else a) acc = some r →
      z ∈ l.map (fun d => d.zones) ∨ acc = some r := by
  intro l
  induction l with
  | nil => exact fun acc h => Or.inr h
  | cons q l ih =>
    intro acc h
    rw [List.foldl_cons] at h
    rcases ih _ h with h2 | h2
    · exact Or.inl (List.mem_cons_of_mem _ h2)
    · by_cases hq : q.zones = z
      · exact Or.inl (by rw [List.map_cons, hq]; exact List.mem_cons_self _ _)
      · rw [if_neg hq] at h2
        exact Or.inr h2

/-- A successful zone-map lookup puts the zone id into the id list. -/
theorem zoneMapGet_mem (l : List ZoneRecord) (z : Str) (r : ZoneRecord)
    (h : zoneMapGet l z = some r) : z ∈ l.map (fun d => d.zones) := by
  rcases zoneMapGet_foldl_mem z r l none h with h2 | h2
  · exact h2
  · exact Option.noConfusion h2

/-- Membership in the first-occurrence union. -/
theorem mem_dedupFirst_fold (x : Str) :
    ∀ (l : List Str) (acc : List Str),
      (x ∈ l.foldl (fun acc z => if z ∈ acc then acc else acc ++ [z]) acc ↔
        x ∈ acc ∨ x ∈ l) := by
  intro l
  induction l with
  | nil =>
    intro acc
    simp
  | cons z l ih =>
    intro acc
    rw [List.foldl_cons, ih]
    by_cases hz : z ∈ acc
    · rw [if_pos hz]
      constructor
      · rintro (h | h)
        · exact Or.inl h
        · exact Or.inr (List.mem_cons_of_mem _ h)
      · rintro (h | h)
        · exact Or.inl h
        · rcases List.mem_cons.mp h with rfl | h2
          · exact Or.inl hz
          · exact Or.inr h2
    · rw [if_neg hz]
      constructor
      · rintro (h | h)
        · rcases List.mem_append.mp h with h2 | h2
          · exact Or.inl h2
          · rw [List.mem_singleton] at h2
            exact Or.inr (h2 ▸ List.mem_cons_self _ _)
        · exact Or.inr (List.mem_cons_of_mem _ h)
      · rintro (h | h)
        · exact Or.inl (List.mem_append.mpr (Or.inl h))
        · rcases List.mem_cons.mp h with rfl | h2
          · exact Or.inl (List.mem_append.mpr (Or.inr (List.mem_singleton.mpr rfl)))
          · exact Or.inr h2

/-- dedupFirst preserves membership. -/
theorem mem_dedupFirst (l : List Str) (x : Str) : x ∈ dedupFirst l ↔ x ∈ l := by
  rw [show dedupFirst l = l.foldl (fun acc z => if z ∈ acc then acc else acc ++ [z]) [] from rfl,
    mem_dedupFirst_fold]
  simp

/-- The padding loop never changes the head of a nonempty list. -/
theorem padFallback_head? (fuel : ℕ) :
    ∀ (spots : List ScoredSpot) (n : ℕ), spots ≠ [] →
      (padFallback fuel spots n).head? = spots.head? := by
  induction fuel with
  | zero => intro spots n _; rfl
  | succ fuel ih =>
    intro spots n h
    simp only [padFallback]
    split_ifs with hc
    · rw [ih _ n (by simp [h])]
      cases spots with
      | nil => exact absurd rfl h
      | cons a t =>
        rw [List.cons_append]
        rfl
    · rfl

/-- A zone whose three averages are numeric and inside the three selected
ranges scores comfort 1 with all criteria met. -/
theorem scoreZone_all_met (lr nr tr : PrefRange) (flt : List FeelsLikeEntry)
    (zl zn zt : Option ZoneRecord) (z : Str) (lux db temp : ℚ)
    (hl : zl.bind (fun r => r.averageLux) = some (JsVal.num lux))
    (hn : zn.bind (fun r => r.averageDb) = some (JsVal.num db))
    (ht : zt.bind (fun r => r.averageTemp) = some (JsVal.num temp))
    (hl2 : lr.min ≤ lux ∧ lux ≤ lr.max) (hn2 : nr.min ≤ db ∧ db ≤ nr.max)
    (ht2 : tr.min ≤ temp ∧ temp ≤ tr.max) :
    (scoreZone (some lr) (some nr) (some tr) flt zl zn zt z).comfortScore = 1 := by
  simp [scoreZone, hl, hn, ht, metFlag, metCount, numSelected, normalizeComfortScore,
    hl2.1, hl2.2, hn2.1, hn2.2, ht2.1, ht2.2]

/-- The head of the ranked-and-padded top list is the rank-assigned head
of the sorted list. -/
theorem ranked_head (m : ScoredSpot) (rest : List ScoredSpot) (n : ℕ) :
    (padFallback 3 (((m :: rest).take 3).enum.map assignRank) n).head? =
      some (assignRank (0, m)) := by
  rw [padFallback_head? 3 (((m :: rest).take 3).enum.map assignRank) n (by simp)]
  rfl

/-- C5: with all three preference families selected and a zone whose
three sensor averages are numeric and inside their selected ranges, that
zone's comfort score equals 1, and the first entry of the ranked output
scores 1 and meets all three criteria; its zone id is the first id of the
union enumeration whose scored spot reaches comfort 1 (the stable sort
breaks ties by enumeration order). -/
theorem allCriteriaMet_best_match (lp sp tp : Option Str) (lr nr tr : PrefRange)
    (D : AllData) (T : AllThresholds) (flt : List FeelsLikeEntry)
    (z : Str) (lux db temp : ℚ)
    (hlp : lp.bind T.lighting = some lr) (hsp : sp.bind T.noise = some nr)
    (htp : tp.bind T.temperature = some tr) (hz : z ≠ [])
    (hl : (zoneMapGet D.light z).bind (fun r => r.averageLux) = some (JsVal.num lux))
    (hn : (zoneMapGet D.noise z).bind (fun r => r.averageDb) = some (JsVal.num db))
    (ht : (zoneMapGet D.temperature z).bind (fun r => r.averageTemp) = some (JsVal.num temp))
    (hl2 : lr.min ≤ lux ∧ lux ≤ lr.max) (hn2 : nr.min ≤ db ∧ db ≤ nr.max)
    (ht2 : tr.min ≤ temp ∧ temp ≤ tr.max) :
    (scoreZone (some lr) (some nr) (some tr) flt (zoneMapGet D.light z)
      (zoneMapGet D.noise z) (zoneMapGet D.temperature z) z).comfortScore = 1 ∧
    ∃ spot z1,
      (calculateFinalRecommendations lp sp tp D T flt).head? = some spot ∧
      spot.comfortScore = 1 ∧
      spot.metLight = some true ∧ spot.metNoise = some true ∧ spot.metTemp = some true ∧
      ((dedupFirst (D.light.map (fun d => d.zones) ++ D.noise.map (fun d => d.zones) ++
          D.temperature.map (fun d => d.zones))).filter (fun z2 => z2 ≠ [])).find?
          (fun z2 => (scoreZone (some lr) (some nr) (some tr) flt (zoneMapGet D.light z2)
            (zoneMapGet D.noise z2) (zoneMapGet D.temperature z2) z2).comfortScore = 1) =
        some z1 ∧
      spot.zoneId = z1 := by
  have hcomfort := scoreZone_all_met lr nr tr flt (zoneMapGet D.light z) (zoneMapGet D.noise z)
    (zoneMapGet D.temperature z) z lux db temp hl hn ht hl2 hn2 ht2
  refine ⟨hcomfort, ?_⟩
  obtain ⟨recL, hrecL, -⟩ := Option.bind_eq_some.mp hl
  have hzmem : z ∈ (dedupFirst (D.light.map (fun d => d.zones) ++
      D.noise.map (fun d => d.zones) ++
      D.temperature.map (fun d => d.zones))).filter (fun z2 => z2 ≠ []) := by
    apply List.mem_filter.mpr
    refine ⟨?_, by simpa using hz⟩
    rw [mem_dedupFirst]
    exact List.mem_append.mpr (Or.inl (List.mem_append.mpr (Or.inl (zoneMapGet_mem _ _ _ hrecL))))
  set spotf := (fun z2 => scoreZone (some lr) (some nr) (some tr) flt (zoneMapGet D.light z2)
    (zoneMapGet D.noise z2) (zoneMapGet D.temperature z2) z2) with hspotfdef
  set names := (dedupFirst (D.light.map (fun d => d.zones) ++ D.noise.map (fun d => d.zones) ++
    D.temperature.map (fun d => d.zones))).filter (fun z2 => z2 ≠ []) with hnamesdef
  have hspotz : (spotf z).comfortScore = 1 := hcomfort
  have hcs_le : ∀ x ∈ names.map spotf, x.comfortScore ≤ 1 := by
    intro x hx
    rcases List.mem_map.mp hx with ⟨z2, hz2, rfl⟩
    exact scoreZone_comfort_le_one _ _ _ _ _ _ _ _
  have hcmc : ∀ x ∈ names.map spotf, x.comfortScore = 1 → x.criteriaMetCount = 3 := by
    intro x hx h1
    rcases List.mem_map.mp hx with ⟨z2, hz2, rfl⟩
    exact (scoreZone_comfort_one_met _ _ _ _ _ _ _ _ h1).1
  have hcongr : ∀ x ∈ names.map spotf,
      (fun x => (names.map spotf).all (spotLE x)) x =
        (fun x => decide (x.comfortScore = 1)) x := by
    intro x hx
    show (names.map spotf).all (spotLE x) = decide (x.comfortScore = 1)
    by_cases h1 : x.comfortScore = 1
    · rw [show decide (x.comfortScore = 1) = true by simp [h1]]
      rw [List.all_eq_true]
      intro y hy
      simp only [spotLE]
      by_cases he : x.comfortScore = y.comfortScore
      · rw [if_pos he]
        rw [decide_eq_true_eq]
        have hy1 : y.comfortScore = 1 := he ▸ h1
        rw [hcmc x hx h1, hcmc y hy hy1]
      · rw [if_neg he]
        rw [decide_eq_true_eq, h1]
        exact lt_of_le_of_ne (hcs_le y hy) (fun hco => he (by rw [h1, hco]))
    · rw [show decide (x.comfortScore = 1) = false by simp [h1]]
      cases hall : (names.map spotf).all (spotLE x) with
      | false => rfl
      | true =>
        exfalso
        have hle := List.all_eq_true.mp hall (spotf z) (List.mem_map_of_mem spotf hzmem)
        simp only [spotLE] at hle
        by_cases he : x.comfortScore = (spotf z).comfortScore
        · exact h1 (he.trans hspotz)
        · rw [if_neg he, decide_eq_true_eq, hspotz] at hle
          have := hcs_le x hx
          exact h1 (le_antisymm this (le_of_lt hle))
  have hhead := head?_insertionSortB spotLE spotLE_total spotLE_trans (names.map spotf)
  rw [find?_congr_mem _ _ _ hcongr, List.find?_map] at hhead
  have hfsome : (names.find? ((fun x => decide (x.comfortScore = 1)) ∘ spotf)).isSome := by
    rw [List.find?_isSome]
    exact ⟨z, hzmem, by simp [Function.comp, hspotz]⟩
  rcases Option.isSome_iff_exists.mp hfsome with ⟨z1, hz1⟩
  have hz1p := @List.find?_some _ ((fun x => decide (x.comfortScore = 1)) ∘ spotf) z1 names hz1
  have hz1cs : (spotf z1).comfortScore = 1 := by
    simpa [Function.comp] using hz1p
  rw [hz1] at hhead
  obtain ⟨rest, hsorted⟩ :
      ∃ rest, insertionSortB spotLE (names.map spotf) = spotf z1 :: rest := by
    cases hs : insertionSortB spotLE (names.map spotf) with
    | nil =>
      rw [hs] at hhead
      exact Option.noConfusion hhead
    | cons a t =>
      rw [hs] at hhead
      have ha : a = spotf z1 := by
        have := (Option.some.injEq _ _).mp hhead
        simpa using this
      exact ⟨t, by rw [ha]⟩
  have hnames_ne : names ≠ [] := fun he => by
    rw [he] at hzmem
    cases hzmem
  have hout : (calculateFinalRecommendations lp sp tp D T flt).head? =
      some (assignRank (0, spotf z1)) := by
    simp only [calculateFinalRecommendations, hlp, hsp, htp]
    rw [← hspotfdef, ← hnamesdef]
    rw [if_neg hnames_ne]
    rw [if_neg (fun hc => hnames_ne (List.length_eq_zero.mp hc.1))]
    rw [hsorted]
    exact ranked_head (spotf z1) rest names.length
  obtain ⟨hzid, hcs2, -, hcmc2, hml, hmn, hmt⟩ := assignRank_preserves (0, spotf z1)
  refine ⟨assignRank (0, spotf z1), z1, hout, ?_, ?_, ?_, ?_, ?_, ?_⟩
  · rw [hcs2]
    exact hz1cs
  · rw [hml]
    exact (scoreZone_comfort_one_met _ _ _ _ _ _ _ _ hz1cs).2.1
  · rw [hmn]
    exact (scoreZone_comfort_one_met _ _ _ _ _ _ _ _ hz1cs).2.2.1
  · rw [hmt]
    exact (scoreZone_comfort_one_met _ _ _ _ _ _ _ _ hz1cs).2.2.2
  · simpa [Function.comp] using hz1
  · rw [hzid]
    rfl

/-- Witness for C5: one zone A with lux 700 in the well-lit range, 40 dB
in the focus-work range and 24 degrees in the stable-comfortable range. -/
theorem allCriteriaMet_best_match_witness :
    (scoreZone (some ⟨501, 1000, 750⟩) (some ⟨0, 45, 40⟩) (some ⟨23, 25, 24⟩) []
      (zoneMapGet [⟨"A".data, [], some (JsVal.num 700), none, none⟩] "A".data)
      (zoneMapGet [⟨"A".data, [], none, some (JsVal.num 40), none⟩] "A".data)
      (zoneMapGet [⟨"A".data, [], none, none, some (JsVal.num 24)⟩] "A".data)
      "A".data).comfortScore = 1 ∧
    ∃ spot z1,
      (calculateFinalRecommendations (some "well-lit".data) (some "focus-work".data)
        (some "stable-comfortable".data)
        ⟨[⟨"A".data, [], some (JsVal.num 700), none, none⟩],
          [⟨"A".data, [], none, some (JsVal.num 40), none⟩],
          [⟨"A".data, [], none, none, some (JsVal.num 24)⟩]⟩
        ⟨lightingThresholds, noiseWorkTypeThresholds, temperatureThresholds⟩ []).head? =
        some spot ∧
      spot.comfortScore = 1 ∧
      spot.metLight = some true ∧ spot.metNoise = some true ∧ spot.metTemp = some true ∧
      ((dedupFirst ([(⟨"A".data, [], some (JsVal.num 700), none, none⟩ : ZoneRecord)].map
            (fun d => d.zones) ++
          [(⟨"A".data, [], none, some (JsVal.num 40), none⟩ : ZoneRecord)].map
            (fun d => d.zones) ++
          [(⟨"A".data, [], none, none, some (JsVal.num 24)⟩ : ZoneRecord)].map
            (fun d => d.zones))).filter (fun z2 => z2 ≠ [])).find?
          (fun z2 => (scoreZone (some ⟨501, 1000, 750⟩) (some ⟨0, 45, 40⟩)
            (some ⟨23, 25, 24⟩) []
            (zoneMapGet [⟨"A".data, [], some (JsVal.num 700), none, none⟩] z2)
            (zoneMapGet [⟨"A".data, [], none, some (JsVal.num 40), none⟩] z2)
            (zoneMapGet [⟨"A".data, [], none, none, some (JsVal.num 24)⟩] z2)
            z2).comfortScore = 1) = some z1 ∧
      spot.zoneId = z1 :=
  allCriteriaMet_best_match (some "well-lit".data) (some "focus-work".data)
    (some "stable-comfortable".data) ⟨501, 1000, 750⟩ ⟨0, 45, 40⟩ ⟨23, 25, 24⟩
    ⟨[⟨"A".data, [], some (JsVal.num 700), none, none⟩],
      [⟨"A".data, [], none, some (JsVal.num 40), none⟩],
      [⟨"A".data, [], none, none, some (JsVal.num 24)⟩]⟩
    ⟨lightingThresholds, noiseWorkTypeThresholds, temperatureThresholds⟩ []
    "A".data 700 40 24 rfl rfl rfl (by decide) rfl rfl rfl
    (by norm_num) (by norm_num) (by norm_num)
